import Mathlib

/-!
Verification of the `sq` SQL-builder library (Go) against its design
specification.  The Go sources are shallowly embedded: pure functions become
Lean functions, panics and returned errors become `Except`, and the mutable
buffer/args state threaded through the renderer becomes an explicit state
record.  Machine integers are modelled by `Nat`/`Int` (no overflow is relevant
to the properties treated here), and Go strings by `List Char` (exact for the
ASCII data exercised by the properties).
-/

set_option maxHeartbeats 1000000

namespace Sq

/-! ## Dialect constants

The four dialect identifiers.  Their string values are fixed by usage in the
sources (`row_column.go` compares against the literal "postgres") and by the
specification ("four fixed string constants"). -/

def DialectSQLite : String := "sqlite"

def DialectPostgres : String := "postgres"

def DialectMySQL : String := "mysql"

def DialectSQLServer : String := "sqlserver"

/-! ## Transaction helper (`tx.go`, `RunInTx`)

`RunInTx` begins a transaction, runs the callback, and uses a deferred guard
keyed on the local `done` flag to roll back on every path that did not reach
the commit.  The embedding records the calls made on the database/transaction
as a trace of events.  The callback outcome is an input (normal return with an
optional error, or a panic); so is the result of `BeginTx` and `Commit`. -/

inductive TxEvent where
  | beginTx
  | rollback
  | commit
  deriving DecidableEq, Repr

inductive CbOutcome (E : Type) where
  | ok
  | err (e : E)
  | panics
  deriving DecidableEq, Repr

/-- The way `RunInTx` terminates: a normal return carrying an optional error,
or a propagated callback panic. -/
inductive TxResult (E : Type) where
  | value (e : Option E)
  | panicked
  deriving DecidableEq, Repr

/-- Embedding of `RunInTx` (src/tx.go lines 40-60).  `beginOutcome` is the
error returned by `db.BeginTx` (`none` = success), `cb` the callback outcome,
`commitOutcome` the error returned by `tx.Commit`.  The body computes the
`done` flag exactly as the Go code sets it (only immediately before the call
to `Commit`); the deferred guard then appends a `rollback` event iff `done`
is still false. -/
def RunInTx (E : Type) (beginOutcome : Option E) (cb : CbOutcome E)
    (commitOutcome : Option E) : List TxEvent × TxResult E :=
  match beginOutcome with
  | some e => ([TxEvent.beginTx], TxResult.value (some e))
  | none =>
    -- body: (done flag at exit, events of the body, result of the body)
    let body : Bool × List TxEvent × TxResult E :=
      match cb with
      | CbOutcome.err e => (false, [], TxResult.value (some e))
      | CbOutcome.panics => (false, [], TxResult.panicked)
      | CbOutcome.ok =>
        -- done = true is set, then Commit is invoked
        (true, [TxEvent.commit], TxResult.value commitOutcome)
    -- deferred guard: if !done { tx.Rollback() }
    ([TxEvent.beginTx] ++ body.2.1 ++ (if body.1 then [] else [TxEvent.rollback]),
     body.2.2)

/-! ## The Column write-direction state machine (`column.go`, `Column.set`)

A `Field` is represented by its rendered name (`toString(col.dialect, field)`
in the source); a `nil` field (a source-level panic) is outside the embedded
domain.  Values are kept abstract in a type parameter `V`.  The panics of the
source (`field name is empty`, and the index-out-of-range on an empty
`rowValues` slice) become `Except.error`. -/

structure Column (V : Type) where
  isUpdate : Bool
  assignments : List (String × V) := []
  rowStarted : Bool := false
  rowEnded : Bool := false
  firstField : String := ""
  insertColumns : List String := []
  rowValues : List (List V) := []
  deriving DecidableEq, Repr

namespace Column

/-- Embedding of `Column.set` (src/column.go lines 29-64). -/
def set {V : Type} (col : Column V) (name : String) (v : V) :
    Except String (Column V) :=
  -- UPDATE mode
  if col.isUpdate then
    Except.ok { col with assignments := col.assignments ++ [(name, v)] }
  -- INSERT mode
  else if name = "" then
    Except.error "field name is empty"
  else if col.rowStarted = false then
    Except.ok { col with
      rowStarted := true
      firstField := name
      insertColumns := col.insertColumns ++ [name]
      rowValues := col.rowValues ++ [[v]] }
  else if name = col.firstField then
    Except.ok { col with
      rowEnded := true
      rowValues := col.rowValues ++ [[v]] }
  else
    match col.rowValues.reverse with
    | [] => Except.error "index out of range"
    | last :: revInit =>
      Except.ok { col with
        insertColumns :=
          if col.rowEnded = false then col.insertColumns ++ [name]
          else col.insertColumns
        rowValues := revInit.reverse ++ [last ++ [v]] }

/-- Folding `Column.set` over a list of (field, value) calls. -/
def setMany {V : Type} (col : Column V) (ps : List (String × V)) :
    Except String (Column V) :=
  match ps with
  | [] => Except.ok col
  | (n, v) :: tl =>
    match col.set n v with
    | Except.error e => Except.error e
    | Except.ok col' => col'.setMany tl

end Column

/-- A fresh INSERT-mode column collector. -/
def initInsertColumn (V : Type) : Column V := { isUpdate := false }

/-- A fresh UPDATE-mode column collector (as used for `SetFunc` mappers). -/
def initUpdateColumn (V : Type) : Column V := { isUpdate := true }

/-- Reference row-splitting used to state the INSERT-mode behaviour of
`Column.set`: scanning the calls after the first, a call whose field name
equals the first field's name starts a new row value; any other call extends
the current (last) row value. -/
def buildRows {V : Type} (n0 : String) (cur : List V) :
    List (String × V) → List (List V)
  | [] => [cur]
  | (n, v) :: tl =>
    if n = n0 then cur :: buildRows n0 [v] tl
    else buildRows n0 (cur ++ [v]) tl

/-! ## Identifier quoting (`QuoteIdentifier`, `EscapeQuote`)

From the renderer source (part_003 lines 196-273, 1105-1252).  The reserved
keyword sets are transcribed verbatim from the source maps. -/

def sqliteKeywords : List String :=
  ["abort", "action", "add", "after", "all", "alter", "always", "analyze", 
   "and", "as", "asc", "attach", "autoincrement", "before", "begin", 
   "between", "by", "cascade", "case", "cast", "check", "collate", 
   "column", "commit", "conflict", "constraint", "create", "cross", 
   "current", "current_date", "current_time", "current_timestamp", 
   "database", "default", "deferrable", "deferred", "delete", "desc", 
   "detach", "distinct", "do", "drop", "each", "else", "end", "escape", 
   "except", "exclude", "exclusive", "exists", "explain", "fail", "filter", 
   "first", "following", "for", "foreign", "from", "full", "generated", 
   "glob", "group", "groups", "having", "if", "ignore", "immediate", "in", 
   "index", "indexed", "initially", "inner", "insert", "instead", 
   "intersect", "into", "is", "isnull", "join", "key", "last", "left", 
   "like", "limit", "match", "materialized", "natural", "no", "not", 
   "nothing", "notnull", "null", "nulls", "of", "offset", "on", "or", 
   "order", "others", "outer", "over", "partition", "plan", "pragma", 
   "preceding", "primary", "query", "raise", "range", "recursive", 
   "references", "regexp", "reindex", "release", "rename", "replace", 
   "restrict", "returning", "right", "rollback", "row", "rows", 
   "savepoint", "select", "set", "table", "temp", "temporary", "then", 
   "ties", "to", "transaction", "trigger", "unbounded", "union", "unique", 
   "update", "using", "vacuum", "values", "view", "virtual", "when", 
   "where", "window", "with", "without"]

def postgresKeywords : List String :=
  ["all", "analyse", "analyze", "and", "any", "array", "as", "asc", 
   "asymmetric", "authorization", "binary", "both", "case", "cast", 
   "check", "collate", "collation", "column", "concurrently", "constraint", 
   "create", "cross", "current_catalog", "current_date", "current_role", 
   "current_schema", "current_time", "current_timestamp", "current_user", 
   "default", "deferrable", "desc", "distinct", "do", "else", "end", 
   "except", "false", "fetch", "for", "foreign", "freeze", "from", "full", 
   "grant", "group", "having", "ilike", "in", "initially", "inner", 
   "intersect", "into", "is", "isnull", "join", "lateral", "leading", 
   "left", "like", "limit", "localtime", "localtimestamp", "natural", 
   "not", "notnull", "null", "offset", "on", "only", "or", "order", 
   "outer", "overlaps", "placing", "primary", "references", "returning", 
   "right", "select", "session_user", "similar", "some", "symmetric", 
   "table", "tablesample", "then", "to", "trailing", "true", "union", 
   "unique", "user", "using", "variadic", "verbose", "when", "where", 
   "window", "with"]

def mysqlKeywords : List String :=
  ["accessible", "add", "all", "alter", "analyze", "and", "as", "asc", 
   "asensitive", "before", "between", "bigint", "binary", "blob", "both", 
   "by", "call", "cascade", "case", "change", "char", "character", "check", 
   "collate", "column", "condition", "constraint", "continue", "convert", 
   "create", "cross", "cube", "cume_dist", "current_date", "current_time", 
   "current_timestamp", "current_user", "cursor", "database", "databases", 
   "day_hour", "day_microsecond", "day_minute", "day_second", "dec", 
   "decimal", "declare", "default", "delayed", "delete", "dense_rank", 
   "desc", "describe", "deterministic", "distinct", "distinctrow", "div", 
   "double", "drop", "dual", "each", "else", "elseif", "empty", "enclosed", 
   "escaped", "except", "exists", "exit", "explain", "false", "fetch", 
   "first_value", "float", "float4", "float8", "for", "force", "foreign", 
   "from", "fulltext", "function", "generated", "get", "grant", "group", 
   "grouping", "groups", "having", "high_priority", "hour_microsecond", 
   "hour_minute", "hour_second", "if", "ignore", "in", "index", "infile", 
   "inner", "inout", "insensitive", "insert", "int", "int1", "int2", 
   "int3", "int4", "int8", "integer", "intersect", "interval", "into", 
   "io_after_gtids", "io_before_gtids", "is", "iterate", "join", 
   "json_table", "key", "keys", "kill", "lag", "last_value", "lateral", 
   "lead", "leading", "leave", "left", "like", "limit", "linear", "lines", 
   "load", "localtime", "localtimestamp", "lock", "long", "longblob", 
   "longtext", "loop", "low_priority", "master_bind", 
   "master_ssl_verify_server_cert", "match", "maxvalue", "mediumblob", 
   "mediumint", "mediumtext", "middleint", "minute_microsecond", 
   "minute_second", "mod", "modifies", "natural", "not", 
   "no_write_to_binlog", "nth_value", "ntile", "null", "numeric", "of", 
   "on", "optimize", "optimizer_costs", "option", "optionally", "or", 
   "order", "out", "outer", "outfile", "over", "partition", "percent_rank", 
   "precision", "primary", "procedure", "purge", "range", "rank", "read", 
   "reads", "read_write", "real", "recursive", "references", "regexp", 
   "release", "rename", "repeat", "replace", "require", "resignal", 
   "restrict", "return", "revoke", "right", "rlike", "row", "rows", 
   "row_number", "schema", "schemas", "second_microsecond", "select", 
   "sensitive", "separator", "set", "show", "signal", "smallint", 
   "spatial", "specific", "sql", "sqlexception", "sqlstate", "sqlwarning", 
   "sql_big_result", "sql_calc_found_rows", "sql_small_result", "ssl", 
   "starting", "stored", "straight_join", "system", "table", "terminated", 
   "then", "tinyblob", "tinyint", "tinytext", "to", "trailing", "trigger", 
   "true", "undo", "union", "unique", "unlock", "unsigned", "update", 
   "usage", "use", "using", "utc_date", "utc_time", "utc_timestamp", 
   "values", "varbinary", "varchar", "varcharacter", "varying", "virtual", 
   "when", "where", "while", "window", "with", "write", "xor", 
   "year_month", "zerofill"]

def sqlserverKeywords : List String :=
  ["add", "external", "procedure", "all", "fetch", "public", "alter", 
   "file", "raiserror", "and", "fillfactor", "read", "any", "for", 
   "readtext", "as", "foreign", "reconfigure", "asc", "freetext", 
   "references", "authorization", "freetexttable", "replication", "backup", 
   "from", "restore", "begin", "full", "restrict", "between", "function", 
   "return", "break", "goto", "revert", "browse", "grant", "revoke", 
   "bulk", "group", "right", "by", "having", "rollback", "cascade", 
   "holdlock", "rowcount", "case", "identity", "rowguidcol", "check", 
   "identity_insert", "rule", "checkpoint", "identitycol", "save", "close", 
   "if", "schema", "clustered", "in", "securityaudit", "coalesce", "index", 
   "select", "collate", "inner", "semantickeyphrasetable", "column", 
   "insert", "semanticsimilaritydetailstable", "commit", "intersect", 
   "semanticsimilaritytable", "compute", "into", "session_user", 
   "constraint", "is", "set", "contains", "join", "setuser", 
   "containstable", "key", "shutdown", "continue", "kill", "some", 
   "convert", "left", "statistics", "create", "like", "system_user", 
   "cross", "lineno", "table", "current", "load", "tablesample", 
   "current_date", "merge", "textsize", "current_time", "national", "then", 
   "current_timestamp", "nocheck", "to", "current_user", "nonclustered", 
   "top", "cursor", "not", "tran", "database", "null", "transaction", 
   "dbcc", "nullif", "trigger", "deallocate", "of", "truncate", "declare", 
   "off", "try_convert", "default", "offsets", "tsequal", "delete", "on", 
   "union", "deny", "open", "unique", "desc", "opendatasource", "unpivot", 
   "disk", "openquery", "update", "distinct", "openrowset", "updatetext", 
   "distributed", "openxml", "use", "double", "option", "user", "drop", 
   "or", "values", "dump", "order", "varying", "else", "outer", "view", 
   "end", "over", "waitfor", "errlvl", "percent", "when", "escape", 
   "pivot", "where", "except", "plan", "while", "exec", "precision", 
   "with", "execute", "primary", "within group", "exists", "print", 
   "writetext", "exit", "proc"]

/-- The per-dialect keyword set consulted by `QuoteIdentifier`; a dialect
string matching none of the four cases (including the empty dialect) has no
keyword set. -/
def dialectKeywords (dialect : String) : List String :=
  if dialect = DialectSQLite then sqliteKeywords
  else if dialect = DialectPostgres then postgresKeywords
  else if dialect = DialectMySQL then mysqlKeywords
  else if dialect = DialectSQLServer then sqlserverKeywords
  else []

/-- ASCII decimal digit, as tested by the source (`char >= '0' && char <= '9'`). -/
def isAsciiDigit (c : Char) : Bool := '0' <= c && c <= '9'

/-- A character allowed in an unquoted identifier:
`char == '_' || (char >= '0' && char <= '9') || (char >= 'a' && char <= 'z')`. -/
def isBareIdentChar (c : Char) : Bool :=
  c = '_' || ('0' <= c && c <= '9') || ('a' <= c && c <= 'z')

/-- The character loop of `QuoteIdentifier`: quoting is forced when the first
character is a digit, or when any character falls outside `[_0-9a-z]`. -/
def charsForceQuoting (cs : List Char) : Bool :=
  match cs with
  | [] => false
  | c :: _ => isAsciiDigit c || !(cs.all isBareIdentChar)

/-- `strings.ToLower` restricted to the ASCII data relevant here. -/
def lowerString (s : String) : String := String.mk (s.data.map Char.toLower)

/-- The pseudo-identifiers that are never quoted. -/
def pseudoIdentifiers : List String :=
  ["EXCLUDED", "INSERTED", "DELETED", "NEW", "OLD"]

/-- The `needsQuoting` computation of `QuoteIdentifier` (part_003 lines
199-237). -/
def needsQuoting (dialect : String) (identifier : String) : Bool :=
  if identifier = "" then true
  else if pseudoIdentifiers.contains identifier then false
  else if charsForceQuoting identifier.data then true
  else (dialectKeywords dialect).contains (lowerString identifier)

/-- The backquote character (MySQL's identifier quote). -/
def backquote : Char := Char.ofNat 96

/-- Embedding of `EscapeQuote` (part_003 lines 253-273).  At each occurrence
of `quote` the source writes a doubled quote; when the occurrence begins an
already-doubled pair and more than two bytes remain from the occurrence, both
characters of the pair are consumed (so an existing doubled pair followed by
at least one more character is passed through unchanged). -/
def EscapeQuote (str : List Char) (quote : Char) : List Char :=
  match str with
  | [] => []
  | c :: c2 :: c3 :: rest =>
    if c = quote then
      if c2 = quote then quote :: quote :: EscapeQuote (c3 :: rest) quote
      else quote :: quote :: EscapeQuote (c2 :: c3 :: rest) quote
    else c :: EscapeQuote (c2 :: c3 :: rest) quote
  | c :: rest =>
    if c = quote then quote :: quote :: EscapeQuote rest quote
    else c :: EscapeQuote rest quote

/-- The quote character used by each dialect's bracket style (the character
that gets doubled; for SQL Server this is the closing bracket). -/
def dialectQuoteChar (dialect : String) : Char :=
  if dialect = DialectMySQL then backquote
  else if dialect = DialectSQLServer then ']'
  else '"'

/-- The opening bracket of each dialect's quote style. -/
def dialectOpenQuote (dialect : String) : Char :=
  if dialect = DialectMySQL then backquote
  else if dialect = DialectSQLServer then '[' else '"'

/-- Embedding of `QuoteIdentifier` (part_003 lines 198-249). -/
def QuoteIdentifier (dialect : String) (identifier : String) : String :=
  if needsQuoting dialect identifier = false then identifier
  else
    String.mk (dialectOpenQuote dialect ::
      (EscapeQuote identifier.data (dialectQuoteChar dialect) ++
        [dialectQuoteChar dialect]))

/-- The quoting condition exactly as the specification claim words it: the
identifier is a pseudo-identifier, or is non-empty, does not start with a
digit, consists only of characters in `[a-z0-9_]`, and is not
case-insensitively in the active dialect's reserved-keyword set. -/
def specUnquotedCond (dialect : String) (s : String) : Prop :=
  s ∈ pseudoIdentifiers ∨
    (s ≠ "" ∧ s.data.head?.all (fun c => !(isAsciiDigit c)) = true ∧
      s.data.all isBareIdentChar = true ∧
      (dialectKeywords dialect).contains (lowerString s) = false)

/-- The escape convention exactly as the specification claim words it: each
embedded quote character is doubled. -/
def specDoubleQuote (str : List Char) (quote : Char) : List Char :=
  str.flatMap (fun c => if c = quote then [quote, quote] else [c])


/-! ## The placeholder language (`Writef`, part_003 lines 38-165, 169-194,
609-753)

The embedded value domain consists of plain values (an abstract type `V`) and
named values (`sql.NamedArg` and the `Parameter` family, which all funnel into
`writeNamedArg`).  `SQLWriter` values and expandable slices are outside the
embedded domain.  `preprocessValue` (not part of the sources under
verification, and given no behaviour by the specification) is the identity on
this domain.  Go maps become association lists with Go's read/write
semantics; the output buffer is a `List Char`. -/

inductive SqlArg (V : Type) where
  | plain (v : V)
  | named (name : String) (v : V)
  deriving DecidableEq, Repr

/-- Association-list lookup (a Go map read). -/
def alistGet {A B : Type} [DecidableEq A] : List (A × B) → A → Option B
  | [], _ => none
  | (a, b) :: tl, k => if a = k then some b else alistGet tl k

/-- Association-list update/insert (a Go map write). -/
def alistSet {A B : Type} [DecidableEq A] : List (A × B) → A → B → List (A × B)
  | [], k, v => [(k, v)]
  | (a, b) :: tl, k, v =>
    if a = k then (k, v) :: tl else (a, b) :: alistSet tl k v

/-- The renderer state threaded through `Writef`: the output buffer, the query
args slice, the optional `params` map (bind-name to arg indices), the
`ordinalIndex` map of already-bound ordinals, and the running index consumed
by anonymous placeholders. -/
structure WState (V : Type) where
  buf : List Char := []
  args : List (SqlArg V) := []
  params : Option (List (String × List Nat)) := none
  ordinalIndex : List (Nat × Nat) := []
  runningValuesIndex : Nat := 0
  deriving DecidableEq, Repr

/-- The dialect's positional marker for the argument at 0-based `index`:
`$N` for Postgres/SQLite, `@pN` for SQL Server, `?` otherwise. -/
def positionalMarker (dialect : String) (index : Nat) : List Char :=
  if dialect = DialectPostgres || dialect = DialectSQLite then
    '$' :: (toString (index + 1)).data
  else if dialect = DialectSQLServer then
    '@' :: 'p' :: (toString (index + 1)).data
  else ['?']

/-- The append step of `writeNamedArg` (reached when the name has no recorded
param indices, or on the default dialect after overwriting them). -/
def namedAppendStep {V : Type} (dialect : String) (st : WState V)
    (name : String) (v : V) (paramIndices : List Nat) : WState V :=
  if dialect = DialectSQLite then
    let args := st.args ++ [SqlArg.named name v]
    { st with
      args := args
      params := (match st.params with
        | none => none
        | some ps => some (alistSet ps name [args.length - 1]))
      buf := st.buf ++ '$' :: name.data }
  else if dialect = DialectPostgres then
    let args := st.args ++ [SqlArg.plain v]
    let index := args.length - 1
    { st with
      args := args
      params := (match st.params with
        | none => none
        | some ps => some (alistSet ps name [index]))
      buf := st.buf ++ '$' :: (toString (index + 1)).data }
  else if dialect = DialectSQLServer then
    let args := st.args ++ [SqlArg.named name v]
    { st with
      args := args
      params := (match st.params with
        | none => none
        | some ps => some (alistSet ps name [args.length - 1]))
      buf := st.buf ++ '@' :: name.data }
  else
    let args := st.args ++ [SqlArg.plain v]
    { st with
      args := args
      params := (match st.params with
        | none => none
        | some ps => some (alistSet ps name (paramIndices ++ [args.length - 1])))
      buf := st.buf ++ ['?'] }

/-- Embedding of `writeNamedArg` (part_003 lines 642-707) on the embedded
domain (the named value is neither an `SQLWriter` nor an expandable slice). -/
def writeNamedArg {V : Type} (dialect : String) (st : WState V)
    (name : String) (v : V) : WState V :=
  let paramIndices : List Nat :=
    match st.params with
    | none => []
    | some ps => (alistGet ps name).getD []
  match paramIndices with
  | [] => namedAppendStep dialect st name v []
  | i0 :: _ =>
    if dialect = DialectSQLite then
      { st with
        args := st.args.set i0 (SqlArg.named name v)
        buf := st.buf ++ '$' :: name.data }
    else if dialect = DialectPostgres then
      { st with
        args := st.args.set i0 (SqlArg.plain v)
        buf := st.buf ++ '$' :: (toString (i0 + 1)).data }
    else if dialect = DialectSQLServer then
      { st with
        args := st.args.set i0 (SqlArg.named name v)
        buf := st.buf ++ '@' :: name.data }
    else
      -- overwrite every recorded index with the plain value, then fall
      -- through to the append step
      namedAppendStep dialect
        { st with args :=
            paramIndices.foldl (fun a i => a.set i (SqlArg.plain v)) st.args }
        name v paramIndices

/-- Embedding of `WriteValue` (part_003 lines 169-194) on the embedded
domain. -/
def WriteValue {V : Type} (dialect : String) (st : WState V)
    (value : SqlArg V) : WState V :=
  match value with
  | SqlArg.named n v => writeNamedArg dialect st n v
  | SqlArg.plain v =>
    let args := st.args ++ [SqlArg.plain v]
    { st with args := args, buf := st.buf ++ positionalMarker dialect (args.length - 1) }

/-- The out-of-bounds message of `writeOrdinalValue`. -/
def ordinalOOBMsg (ordinal : Nat) : List Char :=
  ("ordinal parameter \x7b" ++ toString ordinal ++ "\x7d is out of bounds").data

/-- Embedding of `writeOrdinalValue` (part_003 lines 712-753) on the embedded
domain. -/
def writeOrdinalValue {V : Type} (dialect : String) (st : WState V)
    (values : List (SqlArg V)) (ordinal : Nat) :
    Except (List Char) (WState V) :=
  if ordinal < 1 || values.length < ordinal then
    Except.error (ordinalOOBMsg ordinal)
  else
    match values.get? (ordinal - 1) with
    | none => Except.error "unreachable: bounds already checked".data
    | some (SqlArg.named n v) => Except.ok (writeNamedArg dialect st n v)
    | some (SqlArg.plain v) =>
      if dialect = DialectSQLite || dialect = DialectPostgres ||
          dialect = DialectSQLServer then
        match alistGet st.ordinalIndex ordinal with
        | some index =>
          Except.ok { st with buf := st.buf ++ positionalMarker dialect index }
        | none =>
          let args := st.args ++ [SqlArg.plain v]
          let index := args.length - 1
          Except.ok { st with
            args := args
            ordinalIndex := alistSet st.ordinalIndex ordinal index
            buf := st.buf ++ positionalMarker dialect index }
      else Except.ok (WriteValue dialect st (SqlArg.plain v))

/-- The duplicate-name message produced while building `namedIndex`. -/
def dupNamedMsg (name : String) : List Char :=
  ("named parameter \x7b" ++ name ++ "\x7d provided more than once").data

/-- The missing-name message for an unresolvable named placeholder (the
source also lists the available parameter names). -/
def missingNamedMsg (name : String) : List Char :=
  ("named parameter \x7b" ++ name ++ "\x7d not provided").data

/-- The `namedIndex` construction loop at the top of `writef` (part_003 lines
50-85): record the index of every named value, failing when a name repeats. -/
def buildNamedIndexAux {V : Type} :
    List (SqlArg V) → Nat → List (String × Nat) →
    Except (List Char) (List (String × Nat))
  | [], _, acc => Except.ok acc
  | value :: tl, i, acc =>
    let name := match value with
      | SqlArg.named n _ => n
      | SqlArg.plain _ => ""
    if name = "" then buildNamedIndexAux tl (i + 1) acc
    else
      match alistGet acc name with
      | some _ => Except.error (dupNamedMsg name)
      | none => buildNamedIndexAux tl (i + 1) (alistSet acc name i)

def buildNamedIndex {V : Type} (values : List (SqlArg V)) :
    Except (List Char) (List (String × Nat)) :=
  buildNamedIndexAux values 0 []

/-- A character allowed in a placeholder name: letters, digits and `_`
(`unicode.IsLetter`/`IsDigit` restricted to the ASCII data treated here). -/
def isParamNameChar (c : Char) : Bool := c = '_' || c.isAlpha || c.isDigit

/-- Numeric value of an all-digit parameter name (`strconv.Atoi` on the
digit strings relevant here). -/
def natOfDigits (cs : List Char) : Nat :=
  cs.foldl (fun n c => n * 10 + (c.toNat - '0'.toNat)) 0

/-- Dispatch on a complete placeholder name, as in `writef` (part_003 lines
115-161): validate the characters, then treat it as anonymous, ordinal or
named. -/
def writefDispatch {V : Type} (dialect : String) (values : List (SqlArg V))
    (namedIndex : List (String × Nat)) (acc : List Char) (st : WState V) :
    Except (List Char) (WState V) :=
  if !(acc.all isParamNameChar) then
    Except.error (("\x22" ++ String.mk acc ++
      "\x22 is not a valid param name").data)
  else if acc = [] then
    -- anonymous placeholder
    if values.length ≤ st.runningValuesIndex then
      Except.error "too few values passed in to Writef".data
    else
      match values.get? st.runningValuesIndex with
      | none => Except.error "unreachable: bounds already checked".data
      | some v =>
        Except.ok (WriteValue dialect
          { st with runningValuesIndex := st.runningValuesIndex + 1 } v)
  else if acc.all isAsciiDigit then
    -- ordinal placeholder
    writeOrdinalValue dialect st values (natOfDigits acc)
  else
    -- named placeholder
    match alistGet namedIndex (String.mk acc) with
    | none => Except.error (missingNamedMsg (String.mk acc))
    | some index =>
      match values.get? index with
      | none => Except.error "unreachable: named index in range".data
      | some v => Except.ok (WriteValue dialect st v)

/-- The scanning loop of `writef` (part_003 lines 98-164).  The second
argument is `none` while copying literal text and `some acc` while scanning a
placeholder name (the characters seen since the opening brace).  A `\x7b\x7b`
pair unescapes to a literal brace; a trailing unmatched opening brace makes
the source index past the end of the string (a runtime panic), embedded as an
error. -/
def writefCore {V : Type} (dialect : String) (values : List (SqlArg V))
    (namedIndex : List (String × Nat)) (fmt : List Char)
    (mode : Option (List Char)) (st : WState V) :
    Except (List Char) (WState V) :=
  match fmt, mode with
  | [], none => Except.ok st
  | [], some _ => Except.error "no closing brace found".data
  | c :: rest, some acc =>
    if c = '}' then
      match writefDispatch dialect values namedIndex acc st with
      | Except.error e => Except.error e
      | Except.ok st' => writefCore dialect values namedIndex rest none st'
    else writefCore dialect values namedIndex rest (some (acc ++ [c])) st
  | [c], none =>
    if c = '{' then Except.error "panic: runtime error: index out of range".data
    else writefCore dialect values namedIndex [] none
      { st with buf := st.buf ++ [c] }
  | c :: c2 :: rest2, none =>
    if c = '{' then
      if c2 = '{' then
        writefCore dialect values namedIndex rest2 none
          { st with buf := st.buf ++ ['{'] }
      else writefCore dialect values namedIndex (c2 :: rest2) (some []) st
    else
      writefCore dialect values namedIndex (c2 :: rest2) none
        { st with buf := st.buf ++ [c] }

/-- Embedding of `Writef`/`writef` (part_003 lines 38-165): the fast path for
brace-free formats, the `namedIndex` construction (duplicate names fail), and
the scanning loop.  `buf0`, `args0` and `params0` are the caller-supplied
output state; the running values index and the ordinal index start fresh. -/
def Writef {V : Type} (dialect : String) (format : List Char)
    (values : List (SqlArg V)) (buf0 : List Char) (args0 : List (SqlArg V))
    (params0 : Option (List (String × List Nat))) :
    Except (List Char) (WState V) :=
  if format.contains '{' = false then
    Except.ok { buf := buf0 ++ format, args := args0, params := params0 }
  else
    match buildNamedIndex values with
    | Except.error e => Except.error e
    | Except.ok ni =>
      writefCore dialect values ni format none
        { buf := buf0, args := args0, params := params0 }

/-- The ordinals syntactically referenced by a format string, read off by the
same scan that `writefCore` performs. -/
def ordinalOccurrences (fmt : List Char) (mode : Option (List Char)) :
    List Nat :=
  match fmt, mode with
  | [], _ => []
  | c :: rest, some acc =>
    if c = '}' then
      (if acc ≠ [] ∧ acc.all isParamNameChar ∧ acc.all isAsciiDigit then
        [natOfDigits acc] else []) ++
      ordinalOccurrences rest none
    else ordinalOccurrences rest (some (acc ++ [c]))
  | [_], none => []
  | c :: c2 :: rest2, none =>
    if c = '{' then
      if c2 = '{' then ordinalOccurrences rest2 none
      else ordinalOccurrences (c2 :: rest2) (some [])
    else ordinalOccurrences (c2 :: rest2) none

/-! ## Diagnostic interpolation (`Sprint`, `Sprintf`, part_003 lines 275-592)

`Sprint` is embedded on a value domain of NULL, booleans, integers, plus a
representative for any value with no SQL literal representation (the type
switch's default branch).  Named arguments, floats, strings, byte slices and
timestamps are outside this embedded domain (and so `namedIndices` built by
`Sprintf` is empty on it, as in the source when no `sql.NamedArg` is
present). -/

inductive SpVal where
  | vNull
  | vBool (b : Bool)
  | vInt (n : Int)
  | vBad (typeName : String)
  deriving DecidableEq, Repr

/-- Embedding of `Sprint` (part_003 lines 411-592) on the embedded domain. -/
def Sprint (dialect : String) (v : SpVal) : Except (List Char) (List Char) :=
  match v with
  | SpVal.vNull => Except.ok "NULL".data
  | SpVal.vBool b =>
    if b then
      if dialect = DialectSQLServer then Except.ok "1".data
      else Except.ok "TRUE".data
    else
      if dialect = DialectSQLServer then Except.ok "0".data
      else Except.ok "FALSE".data
  | SpVal.vInt n => Except.ok (toString n).data
  | SpVal.vBad typeName =>
    Except.error ((typeName ++ " has no SQL representation").data)

/-- The scanner state of `Sprintf`: output buffer, the pending
"unconditionally write the next char" flag (`mustWriteCharAt`), whether the
scan is inside a quoted string/identifier and its opening quote, the pending
parameter name, and the running argument index. -/
structure SpState where
  buf : List Char := []
  forceNext : Bool := false
  insideQuoted : Bool := false
  openingQuote : Char := ' '
  paramName : List Char := []
  runningArgsIndex : Nat := 0
  deriving DecidableEq, Repr

/-- Embedding of `lookupParam` (part_003 lines 757-808). -/
def lookupParam (dialect : String) (args : List SpVal)
    (paramName : List Char) (namedIndices : List (String × Nat))
    (runningArgsIndex : Nat) : Except (List Char) (List Char) :=
  match paramName with
  | [] => Except.error "parameter name missing".data
  | p0 :: ptail =>
    let maybeNum : List Char :=
      if p0 = '@' ∧ dialect = DialectSQLServer ∧
          (ptail.head? = some 'p' ∨ ptail.head? = some 'P') then
        ptail.tail
      else ptail
    if maybeNum = [] then
      if p0 ≠ '?' then Except.error "parameter name missing".data
      else
        -- the source indexes args without a bounds check here
        match args.get? runningArgsIndex with
        | none => Except.error "panic: runtime error: index out of range".data
        | some a => Sprint dialect a
    else if maybeNum.all isAsciiDigit then
      let ordinal := natOfDigits maybeNum
      if ordinal < 1 || args.length < ordinal then
        Except.error (("args index " ++ toString ordinal ++
          " out of bounds").data)
      else
        match args.get? (ordinal - 1) with
        | none => Except.error "unreachable: bounds already checked".data
        | some a => Sprint dialect a
    else if dialect = DialectPostgres || dialect = DialectMySQL then
      Except.error ((dialect ++ " does not support " ++ String.mk paramName ++
        " named parameter").data)
    else
      match alistGet namedIndices (String.mk ptail) with
      | none =>
        Except.error (("named parameter " ++ String.mk paramName ++
          " not provided").data)
      | some index =>
        if args.length ≤ index then
          Except.error "args index out of bounds".data
        else
          match args.get? index with
          | none => Except.error "unreachable: bounds already checked".data
          | some a => Sprint dialect a

/-- One quote character of the `'\''`/`'"'`/backquote family (the `[`
bracket is cased separately, as in the source). -/
def isSymmetricQuote (c : Char) : Bool :=
  c = Char.ofNat 39 || c = Char.ofNat 34 || c = backquote

/-- The scanning loop of `Sprintf` (part_003 lines 299-406), one character at
a time, with one character of lookahead for the escape-by-doubling check.
Returns the buffer contents together with `none` on success or the error;
on an error the source returns the buffer accumulated so far. -/
def sprintfCore (dialect : String) (args : List SpVal)
    (namedIndices : List (String × Nat)) :
    List Char → SpState → List Char × Option (List Char)
  | [], st =>
    -- flush the paramName buffer, then the unclosed-quote check
    if st.paramName ≠ [] then
      match lookupParam dialect args st.paramName namedIndices
          st.runningArgsIndex with
      | Except.error e => (st.buf, some e)
      | Except.ok pv =>
        if st.insideQuoted then
          (st.buf ++ pv, some "unclosed string or identifier".data)
        else (st.buf ++ pv, none)
    else if st.insideQuoted then
      (st.buf, some "unclosed string or identifier".data)
    else (st.buf, none)
  | c :: rest, st =>
    if st.forceNext then
      sprintfCore dialect args namedIndices rest
        { st with buf := st.buf ++ [c], forceNext := false }
    else if st.insideQuoted then
      let st1 := { st with buf := st.buf ++ [c] }
      if isSymmetricQuote st.openingQuote then
        if c = st.openingQuote then
          if rest.head? = some st.openingQuote then
            sprintfCore dialect args namedIndices rest
              { st1 with forceNext := true }
          else
            sprintfCore dialect args namedIndices rest
              { st1 with insideQuoted := false }
        else sprintfCore dialect args namedIndices rest st1
      else if st.openingQuote = '[' then
        if c = ']' then
          if rest.head? = some ']' then
            sprintfCore dialect args namedIndices rest
              { st1 with forceNext := true }
          else
            sprintfCore dialect args namedIndices rest
              { st1 with insideQuoted := false }
        else sprintfCore dialect args namedIndices rest st1
      else sprintfCore dialect args namedIndices rest st1
    else if isSymmetricQuote c &&
        (c ≠ backquote || dialect = DialectMySQL) ||
        (c = '[' && dialect = DialectSQLServer) then
      sprintfCore dialect args namedIndices rest
        { st with
          insideQuoted := true
          openingQuote := c
          buf := st.buf ++ [c] }
    else if st.paramName ≠ [] then
      if !(isParamNameChar c) then
        match lookupParam dialect args st.paramName namedIndices
            st.runningArgsIndex with
        | Except.error e => (st.buf, some e)
        | Except.ok pv =>
          sprintfCore dialect args namedIndices rest
            { st with
              buf := st.buf ++ pv ++ [c]
              runningArgsIndex :=
                if st.paramName = ['?'] then st.runningArgsIndex + 1
                else st.runningArgsIndex
              paramName := [] }
      else
        sprintfCore dialect args namedIndices rest
          { st with paramName := st.paramName ++ [c] }
    else if (c = '$' &&
          (dialect = DialectSQLite || dialect = DialectPostgres)) ||
        (c = ':' && dialect = DialectSQLite) ||
        (c = '@' && (dialect = DialectSQLite || dialect = DialectSQLServer)) then
      sprintfCore dialect args namedIndices rest { st with paramName := [c] }
    else if c = '?' && dialect ≠ DialectPostgres then
      if dialect = DialectSQLite then
        sprintfCore dialect args namedIndices rest
          { st with paramName := ['?'] }
      else if args.length ≤ st.runningArgsIndex then
        (st.buf, some (("too few args provided, expected more than " ++
          toString (st.runningArgsIndex + 1)).data))
      else
        match args.get? st.runningArgsIndex with
        | none => (st.buf, some "unreachable: bounds already checked".data)
        | some a =>
          match Sprint dialect a with
          | Except.error e => (st.buf, some e)
          | Except.ok pv =>
            sprintfCore dialect args namedIndices rest
              { st with
                buf := st.buf ++ pv
                runningArgsIndex := st.runningArgsIndex + 1 }
    else
      sprintfCore dialect args namedIndices rest
        { st with buf := st.buf ++ [c] }

/-- Embedding of `Sprintf` (part_003 lines 279-407): the no-args fast path,
then the scan.  `namedIndices` collects `sql.NamedArg` values, of which the
embedded value domain has none. -/
def Sprintf (dialect : String) (query : List Char) (args : List SpVal) :
    List Char × Option (List Char) :=
  if args.length = 0 then (query, none)
  else sprintfCore dialect args [] query {}

/-- The interpolating branch of `logger.LogQuery` (src/logger.go lines
207-211): interpolate the query; when `Sprintf` reports an error, append the
error text after the (partial) query text; always emit the line. -/
def logInterpolatedQuery (dialect : String) (query : List Char)
    (args : List SpVal) : List Char :=
  let r := Sprintf dialect query args
  let q := match r.2 with
    | some e => r.1 ++ ' ' :: e
    | none => r.1
  ' ' :: (q ++ [';'])


/-! ## The Row read-direction state machine (`row_column.go`)

A `Row` is either static (pre-fetched snapshot, `queryIsStatic`) or live; a
live row either has no cursor attached yet (`sqlRows == nil`, the dry-run
registration pass) or consumes previously registered scan cells in order.
Fields are, as for `Column`, represented by their identity string; scan
destinations are a closed sum of the cell types the accessors allocate.  The
wire decoding performed on a consumed cell by `enum`/`array`/`json`/`uuid`
(JSON unmarshalling, `pqarray`, `googleuuid` — external packages) is outside
the embedded domain: the consuming branch surfaces the raw cell content.
Panics become `Except.error`. -/

inductive ScanCell where
  | cellNullBool (v : Bool) (valid : Bool)
  | cellNullString (s : String) (valid : Bool)
  | cellNullTime (t : Int) (valid : Bool)
  | cellNullNumeric (n : Int) (valid : Bool)
  | cellNullBytes (bytes : List Nat) (valid : Bool) (display : Nat)
  | cellRaw
  deriving DecidableEq, Repr

/-- The `displayType` constants of `row_column.go` (lines 1455-1459). -/
def displayTypeBinary : Nat := 0

def displayTypeString : Nat := 1

def displayTypeUUID : Nat := 2

/-- A null-aware scalar result (`sql.Null[T]`). -/
structure NullV (A : Type) where
  v : A
  valid : Bool
  deriving DecidableEq, Repr

structure Row where
  dialect : String := ""
  hasSqlRows : Bool := false
  runningIndex : Nat := 0
  fields : List String := []
  scanDest : List ScanCell := []
  queryIsStatic : Bool := false
  deriving DecidableEq, Repr

/-- Embedding of `markQueryIsStaticPanic` (row_column.go lines 1520-1524). -/
def markQueryIsStaticPanic (row : Row) (target : String) :
    Except String Unit :=
  if row.queryIsStatic then
    Except.error ("cannot call " ++ target ++ " for static queries")
  else Except.ok ()

/-- The shape of the destination pointer passed to `Row.scan`, as far as the
source's type switch distinguishes it. -/
inductive ScanDestTag where
  | tBool
  | tString
  | tTime
  | tInt64
  | tOtherPtr
  | tNonPtr
  deriving DecidableEq, Repr

namespace Row

/-- Embedding of `Row.scan` (row_column.go lines 170-343); only the cell
allocation of the dry-run pass and the cursor-mode index advance are claimed
properties, and the written-back value is not returned by the source
(`scan` has no result). -/
def scan (row : Row) (destTag : ScanDestTag) (field : String) :
    Except String Row :=
  if row.hasSqlRows = false then
    let fields := row.fields ++ [field]
    match destTag with
    | ScanDestTag.tBool =>
      Except.ok { row with
        fields := fields
        scanDest := row.scanDest ++ [ScanCell.cellNullBool false false] }
    | ScanDestTag.tString =>
      Except.ok { row with
        fields := fields
        scanDest := row.scanDest ++ [ScanCell.cellNullString "" false] }
    | ScanDestTag.tTime =>
      Except.ok { row with
        fields := fields
        scanDest := row.scanDest ++ [ScanCell.cellNullTime 0 false] }
    | ScanDestTag.tInt64 =>
      Except.ok { row with
        fields := fields
        scanDest := row.scanDest ++ [ScanCell.cellNullNumeric 0 false] }
    | ScanDestTag.tOtherPtr =>
      Except.ok { row with
        fields := fields
        scanDest := row.scanDest ++ [ScanCell.cellRaw] }
    | ScanDestTag.tNonPtr =>
      Except.error "cannot pass in non pointer value as destPtr"
  else
    Except.ok { row with runningIndex := row.runningIndex + 1 }

/-- Embedding of `Row.Scan` (row_column.go lines 159-162). -/
def Scan (row : Row) (destTag : ScanDestTag) (format : String) :
    Except String Row :=
  match markQueryIsStaticPanic row "Scan" with
  | Except.error e => Except.error e
  | Except.ok _ => row.scan destTag format

/-- Embedding of `Row.ScanField` (row_column.go lines 165-168). -/
def ScanField (row : Row) (destTag : ScanDestTag) (field : String) :
    Except String Row :=
  match markQueryIsStaticPanic row "ScanField" with
  | Except.error e => Except.error e
  | Except.ok _ => row.scan destTag field

/-- Embedding of `Row.BytesField` (row_column.go lines 499-518). -/
def BytesField (row : Row) (field : String) :
    Except String (Row × Option (List Nat)) :=
  match markQueryIsStaticPanic row "BytesField" with
  | Except.error e => Except.error e
  | Except.ok _ =>
    if row.hasSqlRows = false then
      Except.ok ({ row with
        fields := row.fields ++ [field]
        scanDest := row.scanDest ++
          [ScanCell.cellNullBytes [] false displayTypeBinary] }, none)
    else
      match row.scanDest.get? row.runningIndex with
      | some (ScanCell.cellNullBytes bytes valid _) =>
        Except.ok ({ row with runningIndex := row.runningIndex + 1 },
          if valid then some bytes else none)
      | _ => Except.error "interface conversion: not a *nullBytes"

/-- Embedding of `Row.NullBoolField` (row_column.go lines 597-609). -/
def NullBoolField (row : Row) (field : String) :
    Except String (Row × NullV Bool) :=
  match markQueryIsStaticPanic row "NullBoolField" with
  | Except.error e => Except.error e
  | Except.ok _ =>
    if row.hasSqlRows = false then
      Except.ok ({ row with
        fields := row.fields ++ [field]
        scanDest := row.scanDest ++ [ScanCell.cellNullBool false false] },
        ⟨false, false⟩)
    else
      match row.scanDest.get? row.runningIndex with
      | some (ScanCell.cellNullBool v valid) =>
        Except.ok ({ row with runningIndex := row.runningIndex + 1 },
          ⟨v, valid⟩)
      | _ => Except.error "interface conversion: not a *NullBool"

/-- Embedding of `Row.BoolField` (row_column.go lines 557-560). -/
def BoolField (row : Row) (field : String) : Except String (Row × Bool) :=
  match markQueryIsStaticPanic row "BoolField" with
  | Except.error e => Except.error e
  | Except.ok _ =>
    match row.NullBoolField field with
    | Except.error e => Except.error e
    | Except.ok (row', nb) => Except.ok (row', nb.v)

/-- Embedding of `Row.NullStringField` (row_column.go lines 1164-1176). -/
def NullStringField (row : Row) (field : String) :
    Except String (Row × NullV String) :=
  match markQueryIsStaticPanic row "NullStringField" with
  | Except.error e => Except.error e
  | Except.ok _ =>
    if row.hasSqlRows = false then
      Except.ok ({ row with
        fields := row.fields ++ [field]
        scanDest := row.scanDest ++ [ScanCell.cellNullString "" false] },
        ⟨"", false⟩)
    else
      match row.scanDest.get? row.runningIndex with
      | some (ScanCell.cellNullString v valid) =>
        Except.ok ({ row with runningIndex := row.runningIndex + 1 },
          ⟨v, valid⟩)
      | _ => Except.error "interface conversion: not a *NullString"

/-- Embedding of `Row.StringField` (row_column.go lines 1139-1142). -/
def StringField (row : Row) (field : String) :
    Except String (Row × String) :=
  match markQueryIsStaticPanic row "StringField" with
  | Except.error e => Except.error e
  | Except.ok _ =>
    match row.NullStringField field with
    | Except.error e => Except.error e
    | Except.ok (row', ns) => Except.ok (row', ns.v)

/-- Embedding of `Row.NullTimeField` (row_column.go lines 1255-1267). -/
def NullTimeField (row : Row) (field : String) :
    Except String (Row × NullV Int) :=
  match markQueryIsStaticPanic row "NullTimeField" with
  | Except.error e => Except.error e
  | Except.ok _ =>
    if row.hasSqlRows = false then
      Except.ok ({ row with
        fields := row.fields ++ [field]
        scanDest := row.scanDest ++ [ScanCell.cellNullTime 0 false] },
        ⟨0, false⟩)
    else
      match row.scanDest.get? row.runningIndex with
      | some (ScanCell.cellNullTime v valid) =>
        Except.ok ({ row with runningIndex := row.runningIndex + 1 },
          ⟨v, valid⟩)
      | _ => Except.error "interface conversion: not a *NullTime"

/-- Embedding of `Row.TimeField` (row_column.go lines 1218-1221). -/
def TimeField (row : Row) (field : String) : Except String (Row × Int) :=
  match markQueryIsStaticPanic row "TimeField" with
  | Except.error e => Except.error e
  | Except.ok _ =>
    match row.NullTimeField field with
    | Except.error e => Except.error e
    | Except.ok (row', nt) => Except.ok (row', nt.v)

/-- Embedding of `NullNumericField` (row_column.go lines 780-792).  Its
static-mode check is commented out in the source. -/
def NullNumericField (row : Row) (field : String) :
    Except String (Row × NullV Int) :=
  if row.hasSqlRows = false then
    Except.ok ({ row with
      fields := row.fields ++ [field]
      scanDest := row.scanDest ++ [ScanCell.cellNullNumeric 0 false] },
      ⟨0, false⟩)
  else
    match row.scanDest.get? row.runningIndex with
    | some (ScanCell.cellNullNumeric v valid) =>
      Except.ok ({ row with runningIndex := row.runningIndex + 1 },
        ⟨v, valid⟩)
    | _ => Except.error "interface conversion: not a *sql.Null"

/-- The shape of the destination passed to `Row.enum`: the underlying kind
of the pointee, or a non-pointer. -/
inductive EnumDestTag where
  | eIntKind
  | eStringKind
  | eOtherKind
  | eNonPtr
  deriving DecidableEq, Repr

/-- Embedding of `Row.enum` (row_column.go lines 623-662).  The result value
is the raw registered/consumed cell content (`none` when nothing is
written to the destination). -/
def enum (row : Row) (destTag : EnumDestTag) (field : String) :
    Except String (Row × Option (NullV String)) :=
  if row.hasSqlRows = false then
    match destTag with
    | EnumDestTag.eNonPtr =>
      Except.error "cannot pass in non pointer value as destPtr"
    | EnumDestTag.eIntKind =>
      Except.ok ({ row with
        fields := row.fields ++ [field]
        scanDest := row.scanDest ++ [ScanCell.cellNullString "" false] },
        none)
    | EnumDestTag.eStringKind =>
      Except.ok ({ row with
        fields := row.fields ++ [field]
        scanDest := row.scanDest ++ [ScanCell.cellNullString "" false] },
        none)
    | EnumDestTag.eOtherKind =>
      -- the source appends the field, then panics before allocating a cell
      Except.error "underlying type is neither an integer or string"
  else
    match row.scanDest.get? row.runningIndex with
    | some (ScanCell.cellNullString v valid) =>
      Except.ok ({ row with runningIndex := row.runningIndex + 1 },
        some ⟨v, valid⟩)
    | _ => Except.error "interface conversion: not a *NullString"

/-- Embedding of `Row.Enum` (row_column.go lines 612-615): the static-mode
check is commented out in the source. -/
def Enum (row : Row) (destTag : EnumDestTag) (format : String) :
    Except String (Row × Option (NullV String)) :=
  row.enum destTag format

/-- Embedding of `Row.EnumField` (row_column.go lines 618-621). -/
def EnumField (row : Row) (destTag : EnumDestTag) (field : String) :
    Except String (Row × Option (NullV String)) :=
  match markQueryIsStaticPanic row "EnumField" with
  | Except.error e => Except.error e
  | Except.ok _ => row.enum destTag field

/-- The shape of the destination passed to `Row.array`. -/
inductive ArrayDestTag where
  | aSupportedSlicePtr
  | aOtherPtr
  | aNonPtr
  deriving DecidableEq, Repr

/-- Embedding of `Row.array` (row_column.go lines 359-461).  The result is
the raw cell content consumed from the cursor (`none` when nothing is
written). -/
def array (row : Row) (destTag : ArrayDestTag) (field : String) :
    Except String (Row × Option (List Nat)) :=
  if row.hasSqlRows = false then
    match destTag with
    | ArrayDestTag.aNonPtr =>
      Except.error "cannot pass in non pointer value as destPtr"
    | ArrayDestTag.aOtherPtr =>
      if row.dialect = DialectPostgres then
        Except.error "destptr must be a pointer to a supported slice type"
      else
        Except.ok ({ row with
          fields := row.fields ++ [field]
          scanDest := row.scanDest ++
            [ScanCell.cellNullBytes [] false displayTypeString] }, none)
    | ArrayDestTag.aSupportedSlicePtr =>
      Except.ok ({ row with
        fields := row.fields ++ [field]
        scanDest := row.scanDest ++
          [ScanCell.cellNullBytes [] false displayTypeString] }, none)
  else
    match row.scanDest.get? row.runningIndex with
    | some (ScanCell.cellNullBytes bytes valid _) =>
      Except.ok ({ row with runningIndex := row.runningIndex + 1 },
        if valid then some bytes else none)
    | _ => Except.error "interface conversion: not a *nullBytes"

/-- Embedding of the expression form `Row.Array` (row_column.go lines
347-350): the static-mode check is commented out in the source. -/
def Array (row : Row) (destTag : ArrayDestTag) (format : String) :
    Except String (Row × Option (List Nat)) :=
  row.array destTag format

/-- Embedding of `Row.ArrayField` (row_column.go lines 354-357). -/
def ArrayField (row : Row) (destTag : ArrayDestTag) (field : String) :
    Except String (Row × Option (List Nat)) :=
  match markQueryIsStaticPanic row "ArrayField" with
  | Except.error e => Except.error e
  | Except.ok _ => row.array destTag field

/-- The shape of the destination passed to `Row.uuid`. -/
inductive UUIDDestTag where
  | u16BytePtr
  | uArray16Ptr
  | uOtherPtr
  | uNonPtr
  deriving DecidableEq, Repr

/-- Embedding of `Row.uuid` (row_column.go lines 1281-1321). -/
def uuid (row : Row) (destTag : UUIDDestTag) (field : String) :
    Except String (Row × Option (List Nat)) :=
  if row.hasSqlRows = false then
    match destTag with
    | UUIDDestTag.uNonPtr =>
      Except.error "cannot pass in non pointer value as destPtr"
    | UUIDDestTag.uOtherPtr =>
      Except.error "not a pointer to a 16-byte array"
    | UUIDDestTag.u16BytePtr =>
      Except.ok ({ row with
        fields := row.fields ++ [field]
        scanDest := row.scanDest ++
          [ScanCell.cellNullBytes [] false displayTypeUUID] }, none)
    | UUIDDestTag.uArray16Ptr =>
      Except.ok ({ row with
        fields := row.fields ++ [field]
        scanDest := row.scanDest ++
          [ScanCell.cellNullBytes [] false displayTypeUUID] }, none)
  else
    match row.scanDest.get? row.runningIndex with
    | some (ScanCell.cellNullBytes bytes valid _) =>
      Except.ok ({ row with runningIndex := row.runningIndex + 1 },
        if valid then some bytes else none)
    | _ => Except.error "interface conversion: not a *nullBytes"

/-- Embedding of the expression form `Row.UUID` (row_column.go lines
1270-1273): it deliberately performs no static-mode check (source comment:
checking would prevent fetching a UUID column alone). -/
def UUID (row : Row) (destTag : UUIDDestTag) (format : String) :
    Except String (Row × Option (List Nat)) :=
  row.uuid destTag format

/-- Embedding of `Row.UUIDField` (row_column.go lines 1276-1279). -/
def UUIDField (row : Row) (destTag : UUIDDestTag) (field : String) :
    Except String (Row × Option (List Nat)) :=
  match markQueryIsStaticPanic row "UUIDField" with
  | Except.error e => Except.error e
  | Except.ok _ => row.uuid destTag field

/-- Embedding of `Row.json` (row_column.go lines 1086-1109), destination
restricted to pointer / non-pointer as far as the registration pass checks. -/
def json (row : Row) (destIsPtr : Bool) (field : String) :
    Except String (Row × Option (List Nat)) :=
  if row.hasSqlRows = false then
    if destIsPtr = false then
      Except.error "cannot pass in non pointer value as destPtr"
    else
      Except.ok ({ row with
        fields := row.fields ++ [field]
        scanDest := row.scanDest ++
          [ScanCell.cellNullBytes [] false displayTypeString] }, none)
  else
    match row.scanDest.get? row.runningIndex with
    | some (ScanCell.cellNullBytes bytes valid _) =>
      Except.ok ({ row with runningIndex := row.runningIndex + 1 },
        if valid then some bytes else none)
    | _ => Except.error "interface conversion: not a *nullBytes"

end Row


/-! ## The UPDATE statement builder (spec-modelled)

The repository file defining `UpdateQuery` and its rendering is not among the
sources under verification: src/ carries only its tests (part_000) and its
collaborators.  The query structure, the validation order and the dialect
capability flags below are therefore modelled from the specification (§2
Capability Table, §4.1 Statement Builder, §7 error taxonomy), with the
column-mapper path going through the source-embedded `Column.set`. -/

inductive SqErr where
  | invalidStatement (msg : String)
  | unsupportedByDialect (clause : String)
  | renderError (msg : String)
  deriving DecidableEq, Repr

/-- A renderable AST fragment (table, predicate, field or CTE): it renders to
text, or fails like the tests' `FaultySQL`/policy-error stubs. -/
inductive Frag where
  | lit (s : String)
  | faulty (msg : String)
  deriving DecidableEq, Repr

def renderFrag : Frag → Except SqErr String
  | Frag.lit s => Except.ok s
  | Frag.faulty m => Except.error (SqErr.renderError m)

def renderFragList (sep : String) (fs : List Frag) : Except SqErr String :=
  match fs with
  | [] => Except.ok ""
  | f :: tl =>
    match renderFrag f, renderFragList sep tl with
    | Except.error e, _ => Except.error e
    | _, Except.error e => Except.error e
    | Except.ok s, Except.ok rest =>
      Except.ok (if rest = "" then s else s ++ sep ++ rest)

/-- Modelled from the spec: the dialect flag "supports RETURNING"
(RETURNING is rejected on MySQL and SQL Server). -/
def supportsReturningClause (d : String) : Bool :=
  d = DialectSQLite || d = DialectPostgres

/-- Modelled from the spec: the dialect flag "supports ORDER BY/LIMIT on
UPDATE" (rejected unless the dialect flag allows it; of the four dialects
only the MySQL family renders ORDER BY/LIMIT on UPDATE). -/
def supportsOrderByLimitOnUpdate (d : String) : Bool := d = DialectMySQL

/-- Modelled from the spec: dialects that require a FROM table for a JOIN on
UPDATE (the MySQL family instead joins directly, without FROM). -/
def requiresFromForJoin (d : String) : Bool := !(d = DialectMySQL)

/-- Modelled from the spec: the `UpdateQuery` statement AST.  The
column-mapper callback is represented by the (field, value) pairs it emits
through the `Column` setters. -/
structure UpdateQuery (V : Type) where
  dialect : String := ""
  updateTable : Option Frag := none
  columnMapper : Option (List (String × V)) := none
  assignments : List (String × V) := []
  fromTable : Option Frag := none
  joinTables : List Frag := []
  wherePredicate : Option Frag := none
  orderByFields : List Frag := []
  limitRows : Option V := none
  returningFields : List Frag := []

/-- Modelled from the spec (§4.1 step 2): a supplied column-mapper's emitted
assignments substitute for the static list.  The mapper's emissions go
through the source-embedded `Column.set` on a fresh UPDATE-mode column. -/
def effectiveAssignments {V : Type} (q : UpdateQuery V) :
    Except SqErr (List (String × V)) :=
  match q.columnMapper with
  | none => Except.ok q.assignments
  | some pairs =>
    match (initUpdateColumn V).setMany pairs with
    | Except.error e => Except.error (SqErr.renderError e)
    | Except.ok col => Except.ok col.assignments

/-- Render the SET list: each assignment contributes `field = marker` and
appends its value to the args. -/
def renderAssignments {V : Type} (d : String) :
    List (String × V) → List V → String × List V
  | [], args => ("", args)
  | (f, v) :: tl, args =>
    let args1 := args ++ [v]
    let marker := String.mk (positionalMarker d (args1.length - 1))
    let (rest, args2) := renderAssignments d tl args1
    (f ++ " = " ++ marker ++ (if rest = "" then "" else ", " ++ rest), args2)

/-- Modelled from the spec (§4.1): `UpdateQuery` validation — performed
before rendering, in order, first failure wins — followed by clause-by-clause
rendering.  A failure of any kind produces no SQL text (the error carries
none). -/
def UpdateQueryWriteSQL {V : Type} (q : UpdateQuery V) :
    Except SqErr (String × List V) := do
  -- 1. target table must be non-nil
  let tbl ← match q.updateTable with
    | none => Except.error (SqErr.invalidStatement "missing target table")
    | some tbl => Except.ok tbl
  -- 2. non-empty assignment list (a mapper's emissions substitute)
  let asgs ← effectiveAssignments q
  if asgs.isEmpty then
    Except.error (SqErr.invalidStatement "empty assignments")
  else do
  -- 3. dialect capability checks
  if q.dialect = DialectMySQL ∧ q.fromTable.isSome then
    Except.error (SqErr.unsupportedByDialect "FROM")
  else if q.joinTables ≠ [] ∧ q.fromTable = none ∧
      requiresFromForJoin q.dialect then
    Except.error (SqErr.unsupportedByDialect "JOIN")
  else if q.orderByFields ≠ [] ∧
      supportsOrderByLimitOnUpdate q.dialect = false then
    Except.error (SqErr.unsupportedByDialect "ORDER BY")
  else if q.limitRows.isSome ∧
      supportsOrderByLimitOnUpdate q.dialect = false then
    Except.error (SqErr.unsupportedByDialect "LIMIT")
  else if q.returningFields ≠ [] ∧
      supportsReturningClause q.dialect = false then
    Except.error (SqErr.unsupportedByDialect "RETURNING")
  else do
    -- 4. render, any fragment's own error propagating
    let tblText ← renderFrag tbl
    let (setText, args1) := renderAssignments q.dialect asgs []
    let fromText ← match q.fromTable with
      | none => Except.ok ""
      | some f => do
        let t ← renderFrag f
        Except.ok (" FROM " ++ t)
    let joinText ←
      if q.joinTables = [] then Except.ok ""
      else do
        let t ← renderFragList " JOIN " q.joinTables
        Except.ok (" JOIN " ++ t)
    let whereText ← match q.wherePredicate with
      | none => Except.ok ""
      | some p => do
        let t ← renderFrag p
        Except.ok (" WHERE " ++ t)
    let orderText ←
      if q.orderByFields = [] then Except.ok ""
      else do
        let t ← renderFragList ", " q.orderByFields
        Except.ok (" ORDER BY " ++ t)
    let (limitText, args2) :=
      match q.limitRows with
      | none => ("", args1)
      | some v =>
        let args2 := args1 ++ [v]
        (" LIMIT " ++ String.mk (positionalMarker q.dialect
          (args2.length - 1)), args2)
    let returningText ←
      if q.returningFields = [] then Except.ok ""
      else do
        let t ← renderFragList ", " q.returningFields
        Except.ok (" RETURNING " ++ t)
    Except.ok ("UPDATE " ++ tblText ++ " SET " ++ setText ++ fromText ++
      joinText ++ whereText ++ orderText ++ limitText ++ returningText,
      args2)


/-! ## Predicates used in theorem statements -/

/-- A plain (non-named) renderer value. -/
def isPlainArg {V : Type} : SqlArg V → Bool
  | SqlArg.plain _ => true
  | SqlArg.named _ _ => false

/-- The binding invariant of the ordinal index: keys are bound at most once,
and each bound ordinal `N` points at an args slot holding `values[N-1]`. -/
def ordinalInv {V : Type} (values : List (SqlArg V))
    (args : List (SqlArg V)) (oi : List (Nat × Nat)) : Prop :=
  (oi.map Prod.fst).Nodup ∧
    ∀ p ∈ oi, 1 ≤ p.1 ∧ p.1 ≤ values.length ∧
      args.get? p.2 = values.get? (p.1 - 1)

/-- A character that the `Sprintf` scanner copies through unchanged when no
quote, parameter name or placeholder is pending. -/
def isSprintfPlainChar (dialect : String) (c : Char) : Bool :=
  !(isSymmetricQuote c && (c ≠ backquote || dialect = DialectMySQL)) &&
  !(c = '[' && dialect = DialectSQLServer) &&
  !((c = '$' && (dialect = DialectSQLite || dialect = DialectPostgres)) ||
    (c = ':' && dialect = DialectSQLite) ||
    (c = '@' && (dialect = DialectSQLite || dialect = DialectSQLServer))) &&
  !(c = '?' && dialect ≠ DialectPostgres)


/-- Whether `l` contains two adjacent occurrences of `q` (the input shape on
which `EscapeQuote` deviates from naive doubling). -/
def hasAdjacentPair (l : List Char) (q : Char) : Bool :=
  match l with
  | c1 :: c2 :: rest => (c1 = q && c2 = q) || hasAdjacentPair (c2 :: rest) q
  | _ => false

/-- A derivation that the `Sprintf` scanner consumes a query prefix cleanly,
from one pending-free state to another, possibly interpolating placeholders
on the way: a plain character is copied; a direct `?` placeholder (on the
dialects where `?` is not deferred) interpolates the next argument; a
`$N` ordinal parameter (SQLite/Postgres), terminated by an ordinary
character (no quote, bracket or name character), interpolates
`args[N-1]`. -/
inductive ScanOk (dialect : String) (args : List SpVal)
    (namedIndices : List (String × Nat)) :
    List Char → SpState → SpState → Prop where
  | nil (st : SpState) : ScanOk dialect args namedIndices [] st st
  | plain (c : Char) (rest : List Char) (st st' : SpState) :
      isSprintfPlainChar dialect c = true →
      ScanOk dialect args namedIndices rest
        { st with buf := st.buf ++ [c] } st' →
      ScanOk dialect args namedIndices (c :: rest) st st'
  | anon (rest : List Char) (st st' : SpState) (a : SpVal) (pv : List Char) :
      dialect ≠ DialectPostgres → dialect ≠ DialectSQLite →
      args.get? st.runningArgsIndex = some a →
      Sprint dialect a = Except.ok pv →
      ScanOk dialect args namedIndices rest
        { st with
          buf := st.buf ++ pv
          runningArgsIndex := st.runningArgsIndex + 1 } st' →
      ScanOk dialect args namedIndices ('?' :: rest) st st'
  | ordinal (ds : List Char) (t : Char) (rest : List Char) (st st' : SpState)
      (a : SpVal) (pv : List Char) :
      (dialect = DialectSQLite ∨ dialect = DialectPostgres) →
      ds ≠ [] → ds.all isAsciiDigit = true →
      1 ≤ natOfDigits ds → natOfDigits ds ≤ args.length →
      args.get? (natOfDigits ds - 1) = some a →
      Sprint dialect a = Except.ok pv →
      isSymmetricQuote t = false → t ≠ '[' → isParamNameChar t = false →
      ScanOk dialect args namedIndices rest
        { st with buf := st.buf ++ pv ++ [t] } st' →
      ScanOk dialect args namedIndices ('$' :: (ds ++ t :: rest)) st st'

/-! # Theorems -/

/-- Claim C9: for every `TxDB` and callback, `RunInTx` rolls back on every
exit path that does not reach commit: if `BeginTx` succeeds and the callback
returns a non-nil error or panics, `Rollback` is invoked and `Commit` is
never invoked; `Commit` is invoked exactly when the callback returns nil, and
on that path `Rollback` is not invoked, the committed flag being set only
immediately before the `Commit` call (so the deferred guard stays disarmed
even when `Commit` itself returns an error). -/
theorem runInTx_rollback_discipline (E : Type) (beginOutcome : Option E)
    (cb : CbOutcome E) (commitOutcome : Option E) :
    (beginOutcome = none → cb ≠ CbOutcome.ok →
      TxEvent.rollback ∈ (RunInTx E beginOutcome cb commitOutcome).1 ∧
      TxEvent.commit ∉ (RunInTx E beginOutcome cb commitOutcome).1) ∧
    (TxEvent.commit ∈ (RunInTx E beginOutcome cb commitOutcome).1 ↔
      (beginOutcome = none ∧ cb = CbOutcome.ok)) ∧
    (beginOutcome = none → cb = CbOutcome.ok →
      (RunInTx E beginOutcome cb commitOutcome).1 =
        [TxEvent.beginTx, TxEvent.commit] ∧
      (RunInTx E beginOutcome cb commitOutcome).2 =
        TxResult.value commitOutcome) ∧
    (beginOutcome = none → cb = CbOutcome.panics →
      (RunInTx E beginOutcome cb commitOutcome).1 =
        [TxEvent.beginTx, TxEvent.rollback] ∧
      (RunInTx E beginOutcome cb commitOutcome).2 = TxResult.panicked) := by
  rcases beginOutcome with _ | e <;> rcases cb with _ | e' | _ <;>
    simp [RunInTx]

/-- Witness for C9 at a concrete input: a panicking callback after a
successful begin yields begin-then-rollback and propagates the panic. -/
theorem runInTx_rollback_discipline_witness :
    (RunInTx Unit none CbOutcome.panics none).1 =
      [TxEvent.beginTx, TxEvent.rollback] ∧
    (RunInTx Unit none CbOutcome.panics none).2 = TxResult.panicked :=
  (runInTx_rollback_discipline Unit none CbOutcome.panics none).2.2.2
    rfl rfl

/-- Claim C5 (code bug): `Writef`'s own documentation promises last-write-wins
for repeated named values, but the implementation rejects a repeated name
while building `namedIndex`: with two named values both called `x`, a format
referencing `{x}` fails with "named parameter {x} provided more than once"
instead of resolving to the last value. -/
theorem writef_duplicate_named_fails :
    Writef DialectSQLite "{x}".data
      [SqlArg.named "x" (1 : Nat), SqlArg.named "x" (2 : Nat)]
      [] [] (some []) =
      Except.error (dupNamedMsg "x") := by rfl

/-- Claim C7 counterexample: the expression form `Row.Enum`, invoked on a
static row, does not fail with a mode-use error — it silently registers the
expression and leaves the destination untouched (the static-mode check is
commented out in the source). -/
theorem row_enum_static_succeeds :
    Row.Enum { queryIsStatic := true } Row.EnumDestTag.eIntKind "status" =
      Except.ok ({ queryIsStatic := true
                   fields := ["status"]
                   scanDest := [ScanCell.cellNullString "" false] }, none) := by
  rfl

/-- Claim C7 (amended): every live-only field accessor — `Scan`, `ScanField`,
`BytesField`, `BoolField`, `StringField`, `TimeField`, `EnumField`,
`ArrayField`, `UUIDField` — invoked on a static row fails with a mode-use
error; the expression forms `Enum`, `Array` and `UUID` deliberately skip the
static-mode check and, on a static row without an attached cursor, silently
register the expression without touching the destination. -/
theorem row_static_mode_errors (r : Row) (hstatic : r.queryIsStatic = true) :
    (∀ tag f, Row.Scan r tag f =
      Except.error "cannot call Scan for static queries") ∧
    (∀ tag f, Row.ScanField r tag f =
      Except.error "cannot call ScanField for static queries") ∧
    (∀ f, Row.BytesField r f =
      Except.error "cannot call BytesField for static queries") ∧
    (∀ f, Row.BoolField r f =
      Except.error "cannot call BoolField for static queries") ∧
    (∀ f, Row.StringField r f =
      Except.error "cannot call StringField for static queries") ∧
    (∀ f, Row.TimeField r f =
      Except.error "cannot call TimeField for static queries") ∧
    (∀ tag f, Row.EnumField r tag f =
      Except.error "cannot call EnumField for static queries") ∧
    (∀ tag f, Row.ArrayField r tag f =
      Except.error "cannot call ArrayField for static queries") ∧
    (∀ tag f, Row.UUIDField r tag f =
      Except.error "cannot call UUIDField for static queries") ∧
    (r.hasSqlRows = false →
      (∀ f, Row.Enum r Row.EnumDestTag.eIntKind f =
        Except.ok ({ r with
          fields := r.fields ++ [f]
          scanDest := r.scanDest ++ [ScanCell.cellNullString "" false] },
          none)) ∧
      (∀ f, Row.Array r Row.ArrayDestTag.aSupportedSlicePtr f =
        Except.ok ({ r with
          fields := r.fields ++ [f]
          scanDest := r.scanDest ++
            [ScanCell.cellNullBytes [] false displayTypeString] }, none)) ∧
      (∀ f, Row.UUID r Row.UUIDDestTag.u16BytePtr f =
        Except.ok ({ r with
          fields := r.fields ++ [f]
          scanDest := r.scanDest ++
            [ScanCell.cellNullBytes [] false displayTypeUUID] }, none))) := by
  refine ⟨?_, ?_, ?_, ?_, ?_, ?_, ?_, ?_, ?_, ?_⟩ <;>
    intro h <;>
    simp_all [Row.Scan, Row.ScanField, Row.BytesField, Row.BoolField,
      Row.StringField, Row.TimeField, Row.EnumField, Row.ArrayField,
      Row.UUIDField, Row.Enum, Row.Array, Row.UUID, Row.enum, Row.array,
      Row.uuid, markQueryIsStaticPanic]

/-- Witness for C7 at a concrete static row. -/
theorem row_static_mode_errors_witness :
    Row.BoolField { queryIsStatic := true } "f" =
      Except.error "cannot call BoolField for static queries" :=
  (row_static_mode_errors { queryIsStatic := true } rfl).2.2.2.1 "f"


/-- Claim C10: on a live row before a cursor is attached (the dry-run
registration pass: not static, `sqlRows == nil`), every typed accessor call
appends exactly one field and exactly one scan destination — keeping the two
lists of equal length — and returns the zero value of its result type
(false, 0, empty string, nil bytes, invalid null pair) without consuming any
data (the running index is untouched, as the structure equalities show). -/
theorem row_registration_pass (r : Row) (f : String)
    (hlive : r.queryIsStatic = false) (hnorows : r.hasSqlRows = false) :
    (Row.NullBoolField r f = Except.ok ({ r with
      fields := r.fields ++ [f]
      scanDest := r.scanDest ++ [ScanCell.cellNullBool false false] },
      ⟨false, false⟩)) ∧
    (Row.BoolField r f = Except.ok ({ r with
      fields := r.fields ++ [f]
      scanDest := r.scanDest ++ [ScanCell.cellNullBool false false] },
      false)) ∧
    (Row.NullStringField r f = Except.ok ({ r with
      fields := r.fields ++ [f]
      scanDest := r.scanDest ++ [ScanCell.cellNullString "" false] },
      ⟨"", false⟩)) ∧
    (Row.StringField r f = Except.ok ({ r with
      fields := r.fields ++ [f]
      scanDest := r.scanDest ++ [ScanCell.cellNullString "" false] },
      "")) ∧
    (Row.NullTimeField r f = Except.ok ({ r with
      fields := r.fields ++ [f]
      scanDest := r.scanDest ++ [ScanCell.cellNullTime 0 false] },
      ⟨0, false⟩)) ∧
    (Row.TimeField r f = Except.ok ({ r with
      fields := r.fields ++ [f]
      scanDest := r.scanDest ++ [ScanCell.cellNullTime 0 false] },
      0)) ∧
    (Row.NullNumericField r f = Except.ok ({ r with
      fields := r.fields ++ [f]
      scanDest := r.scanDest ++ [ScanCell.cellNullNumeric 0 false] },
      ⟨0, false⟩)) ∧
    (Row.BytesField r f = Except.ok ({ r with
      fields := r.fields ++ [f]
      scanDest := r.scanDest ++
        [ScanCell.cellNullBytes [] false displayTypeBinary] },
      none)) ∧
    (Row.ScanField r ScanDestTag.tBool f = Except.ok { r with
      fields := r.fields ++ [f]
      scanDest := r.scanDest ++ [ScanCell.cellNullBool false false] }) ∧
    (Row.ScanField r ScanDestTag.tInt64 f = Except.ok { r with
      fields := r.fields ++ [f]
      scanDest := r.scanDest ++ [ScanCell.cellNullNumeric 0 false] }) ∧
    (Row.EnumField r Row.EnumDestTag.eIntKind f = Except.ok ({ r with
      fields := r.fields ++ [f]
      scanDest := r.scanDest ++ [ScanCell.cellNullString "" false] },
      none)) ∧
    (Row.ArrayField r Row.ArrayDestTag.aSupportedSlicePtr f =
      Except.ok ({ r with
        fields := r.fields ++ [f]
        scanDest := r.scanDest ++
          [ScanCell.cellNullBytes [] false displayTypeString] },
        none)) ∧
    (Row.json r true f = Except.ok ({ r with
      fields := r.fields ++ [f]
      scanDest := r.scanDest ++
        [ScanCell.cellNullBytes [] false displayTypeString] },
      none)) ∧
    (Row.UUIDField r Row.UUIDDestTag.u16BytePtr f = Except.ok ({ r with
      fields := r.fields ++ [f]
      scanDest := r.scanDest ++
        [ScanCell.cellNullBytes [] false displayTypeUUID] },
      none)) ∧
    (r.fields.length = r.scanDest.length →
      (r.fields ++ [f]).length = (r.scanDest ++
        [ScanCell.cellNullBool false false]).length) := by
  refine ⟨?_, ?_, ?_, ?_, ?_, ?_, ?_, ?_, ?_, ?_, ?_, ?_, ?_, ?_, ?_⟩ <;>
    simp [Row.NullBoolField, Row.BoolField, Row.NullStringField,
      Row.StringField, Row.NullTimeField, Row.TimeField,
      Row.NullNumericField, Row.BytesField, Row.ScanField, Row.scan,
      Row.EnumField, Row.enum, Row.ArrayField, Row.array, Row.json,
      Row.UUIDField, Row.uuid, markQueryIsStaticPanic, hlive, hnorows]

/-- Witness for C10 at a concrete fresh live row. -/
theorem row_registration_pass_witness :
    Row.NullBoolField { } "is_active" =
      Except.ok
        ({ fields := ["is_active"]
           scanDest := [ScanCell.cellNullBool false false] }, ⟨false, false⟩) :=
  (row_registration_pass { } "is_active" rfl rfl).1


/-- On an UPDATE-mode column, `Column.set` simply appends one assignment per
call, so a mapper's emissions are collected in order. -/
theorem column_setMany_update {V : Type} (pairs : List (String × V))
    (col : Column V) (h : col.isUpdate = true) :
    col.setMany pairs =
      Except.ok { col with assignments := col.assignments ++ pairs } := by
  induction pairs generalizing col with
  | nil => simp [Column.setMany]
  | cons p tl ih =>
    obtain ⟨n, v⟩ := p
    simp [Column.setMany, Column.set, h, ih, List.append_assoc]

/-- Claim C2: for every dialect and every fixed list of (field, value) pairs,
an UPDATE built with a column-mapper callback that sets those pairs through
the `Column` setters renders byte-identical SQL text and an identical
argument list to the UPDATE built with the equivalent static assignment list.
(The mapper path runs the source-embedded `Column.set`; the UPDATE renderer
is spec-modelled, its source file being absent from src/.) -/
theorem update_setfunc_matches_static {V : Type} (d : String)
    (pairs : List (String × V)) (tbl : Option Frag) (ft : Option Frag)
    (jts : List Frag) (wp : Option Frag) (obs : List Frag) (lr : Option V)
    (rf : List Frag) :
    UpdateQueryWriteSQL
      (UpdateQuery.mk d tbl (some pairs) [] ft jts wp obs lr rf) =
    UpdateQueryWriteSQL
      (UpdateQuery.mk d tbl none pairs ft jts wp obs lr rf) := by
  have h1 : effectiveAssignments
      (UpdateQuery.mk d tbl (some pairs) [] ft jts wp obs lr rf) =
      Except.ok pairs := by
    simp [effectiveAssignments, column_setMany_update, initUpdateColumn]
  have h2 : effectiveAssignments
      (UpdateQuery.mk d tbl none pairs ft jts wp obs lr rf) =
      Except.ok pairs := rfl
  simp only [UpdateQueryWriteSQL, h1, h2]

/-- Claim C3 counterexample: `QuoteIdentifier` does not double every embedded
quote character.  On MySQL, the identifier consisting of a doubled backquote
followed by `x` keeps its existing pair as-is instead of doubling each
backquote, so the output differs from the claim's predicted wrapping. -/
theorem quoteIdentifier_not_naive_doubling :
    QuoteIdentifier DialectMySQL (String.mk [backquote, backquote, 'x']) ≠
      String.mk (dialectOpenQuote DialectMySQL ::
        (specDoubleQuote [backquote, backquote, 'x']
          (dialectQuoteChar DialectMySQL) ++
          [dialectQuoteChar DialectMySQL])) := by
  decide

/-- The character loop of `QuoteIdentifier` forces quoting exactly when the
identifier starts with a digit or contains a character outside `[_0-9a-z]`. -/
theorem charsForceQuoting_eq_false (l : List Char) :
    charsForceQuoting l = false ↔
      l.head?.all (fun c => !(isAsciiDigit c)) = true ∧
        l.all isBareIdentChar = true := by
  cases l with
  | nil => simp [charsForceQuoting]
  | cons c rest => simp [charsForceQuoting, List.all_cons]

/-- `needsQuoting` computes exactly the complement of the claim's unquoted
condition. -/
theorem needsQuoting_eq_false_iff (d : String) (s : String) :
    needsQuoting d s = false ↔ specUnquotedCond d s := by
  have hmem : pseudoIdentifiers.contains s = true ↔ s ∈ pseudoIdentifiers :=
    ⟨List.mem_of_elem_eq_true, List.elem_eq_true_of_mem⟩
  by_cases h0 : s = ""
  · subst h0
    simp [needsQuoting, specUnquotedCond, pseudoIdentifiers]
  · by_cases hp : pseudoIdentifiers.contains s = true
    · simp [needsQuoting, specUnquotedCond, h0, hp, hmem.mp hp]
    · have hnp : s ∉ pseudoIdentifiers := fun hm => hp (hmem.mpr hm)
      by_cases hc : charsForceQuoting s.data = true
      · unfold needsQuoting specUnquotedCond
        rw [if_neg h0, if_neg hp, if_pos hc]
        simp only [Bool.true_eq_false, false_iff]
        rintro (hm | ⟨_, hd, ha, _⟩)
        · exact hnp hm
        · have := (charsForceQuoting_eq_false s.data).mpr ⟨hd, ha⟩
          rw [this] at hc
          cases hc
      · have hc' : charsForceQuoting s.data = false := by
          simpa using hc
        have hrest := (charsForceQuoting_eq_false s.data).mp hc'
        unfold needsQuoting specUnquotedCond
        rw [if_neg h0, if_neg hp, if_neg hc]
        constructor
        · intro h
          exact Or.inr ⟨h0, hrest.1, hrest.2, h⟩
        · rintro (hm | ⟨_, _, _, hk⟩)
          · exact absurd hm hnp
          · exact hk

/-- `EscapeQuote` never shrinks its input. -/
theorem escapeQuote_length_ge (l : List Char) (q : Char) :
    l.length ≤ (EscapeQuote l q).length := by
  induction l, q using EscapeQuote.induct <;>
    simp_all [EscapeQuote] <;> omega

/-- Claim C3 (amended): `QuoteIdentifier d s` returns `s` unchanged exactly
when `s` is a pseudo-identifier or is non-empty, does not start with a digit,
consists only of `[a-z0-9_]`, and is not case-insensitively a reserved
keyword of the dialect; otherwise it wraps `s` in the dialect's brackets with
`EscapeQuote` applied to the embedded quote character — which doubles each
embedded quote except that an already-doubled pair followed by at least one
further character is passed through unchanged (on inputs with no adjacent
quote pair, `EscapeQuote` coincides with doubling every quote). -/
theorem quoteIdentifier_characterization (d : String) (s : String) :
    (QuoteIdentifier d s = s ↔ specUnquotedCond d s) ∧
    (¬ specUnquotedCond d s →
      QuoteIdentifier d s =
        String.mk (dialectOpenQuote d ::
          (EscapeQuote s.data (dialectQuoteChar d) ++
            [dialectQuoteChar d]))) ∧
    (∀ l q, hasAdjacentPair l q = false →
      EscapeQuote l q = specDoubleQuote l q) := by
  refine ⟨?_, ?_, ?_⟩
  · constructor
    · intro h
      by_cases hq : needsQuoting d s = false
      · exact (needsQuoting_eq_false_iff d s).mp hq
      · exfalso
        have hq' : needsQuoting d s = true := by
          simpa using hq
        have hwrap : QuoteIdentifier d s =
            String.mk (dialectOpenQuote d ::
              (EscapeQuote s.data (dialectQuoteChar d) ++
                [dialectQuoteChar d])) := by
          unfold QuoteIdentifier
          simp [hq']
        rw [hwrap] at h
        have hdata := congrArg String.data h
        have hlen := congrArg List.length hdata
        have hge := escapeQuote_length_ge s.data (dialectQuoteChar d)
        simp only [List.length_cons, List.length_append,
          List.length_singleton] at hlen
        omega
    · intro h
      have hq : needsQuoting d s = false :=
        (needsQuoting_eq_false_iff d s).mpr h
      unfold QuoteIdentifier
      simp [hq]
  · intro h
    have hq : needsQuoting d s = true := by
      rcases Bool.eq_false_or_eq_true (needsQuoting d s) with ht | hf
      · exact ht
      · exact absurd ((needsQuoting_eq_false_iff d s).mp hf) h
    unfold QuoteIdentifier
    simp [hq]
  · intro l q hl
    induction l, q using EscapeQuote.induct <;>
      simp_all [EscapeQuote, specDoubleQuote, hasAdjacentPair]

/-- Witness for C3 (amended) at a concrete input: `order` is a reserved
keyword, so on MySQL it is wrapped in backquotes. -/
theorem quoteIdentifier_characterization_witness :
    QuoteIdentifier DialectMySQL "order" =
      String.mk (dialectOpenQuote DialectMySQL ::
        (EscapeQuote "order".data (dialectQuoteChar DialectMySQL) ++
          [dialectQuoteChar DialectMySQL])) :=
  (quoteIdentifier_characterization DialectMySQL "order").2.1
    (by unfold specUnquotedCond; decide)


/-- Generalised INSERT trace lemma: from any started state whose row values
decompose as `init ++ [cur]`, folding `Column.set` over further calls splits
rows at each recurrence of the first field's name, extends the last row on
any other call, and appends insert columns only while the first row is still
open. -/
theorem column_setMany_insert_go {V : Type} (tl : List (String × V)) :
    ∀ (s : Column V) (init : List (List V)) (cur : List V),
    s.isUpdate = false → s.rowStarted = true →
    (∀ p ∈ tl, p.1 ≠ "") →
    s.rowValues = init ++ [cur] →
    s.setMany tl = Except.ok { s with
      rowEnded :=
        s.rowEnded || tl.any (fun p => decide (p.1 = s.firstField))
      insertColumns := s.insertColumns ++
        (if s.rowEnded then []
         else (tl.takeWhile
           (fun p => decide (p.1 ≠ s.firstField))).map Prod.fst)
      rowValues := init ++ buildRows s.firstField cur tl } := by
  induction tl with
  | nil =>
    intro s init cur _ _ _ hrv
    simp only [Column.setMany, List.any_nil, Bool.or_false,
      List.takeWhile_nil, List.map_nil, List.append_nil, ite_self,
      buildRows]
    rw [← hrv]
  | cons p tl ih =>
    intro s init cur hupd hstart hnames hrv
    obtain ⟨n, v⟩ := p
    have hn : n ≠ "" := hnames (n, v) (List.mem_cons_self _ _)
    have hnames' : ∀ p ∈ tl, p.1 ≠ "" :=
      fun p hp => hnames p (List.mem_cons_of_mem _ hp)
    by_cases hf : n = s.firstField
    · have hn' : s.firstField ≠ "" := hf ▸ hn
      have hstep : s.set n v = Except.ok { s with
          rowEnded := true
          rowValues := s.rowValues ++ [[v]] } := by
        simp [Column.set, hupd, hn, hn', hstart, hf]
      have hrec := ih { s with
          rowEnded := true
          rowValues := s.rowValues ++ [[v]] }
        (init ++ [cur]) [v] hupd hstart hnames' (by simp [hrv])
      simp only [Column.setMany, hstep, hrec]
      subst hf
      simp [buildRows, List.takeWhile, List.any_cons, hrv]
    · have hrev : s.rowValues.reverse = cur :: init.reverse := by
        simp [hrv]
      have hstep : s.set n v = Except.ok { s with
          insertColumns :=
            if s.rowEnded = false then s.insertColumns ++ [n]
            else s.insertColumns
          rowValues := init ++ [cur ++ [v]] } := by
        simp only [Column.set, hupd, Bool.false_eq_true, if_false,
          if_neg hn, hstart, if_neg hf, hrev]
        simp
      have hrec := ih { s with
          insertColumns :=
            if s.rowEnded = false then s.insertColumns ++ [n]
            else s.insertColumns
          rowValues := init ++ [cur ++ [v]] }
        init (cur ++ [v]) hupd hstart hnames' rfl
      simp only [Column.setMany, hstep, hrec]
      have hfd : (decide (n = s.firstField)) = false := by
        simp [hf]
      cases he : s.rowEnded with
      | true =>
        simp [he, buildRows, if_neg hf, List.any_cons, hfd]
      | false =>
        simp [he, buildRows, if_neg hf, List.any_cons, hfd,
          List.takeWhile, List.append_assoc]

/-- Claim C6: in INSERT mode with non-empty field names, before the first
recurrence of the first field's name every call appends one insert column
and extends the first row value (the `takeWhile` prefix); every call whose
name equals the first field's name starts a new row value; after the first
recurrence, calls with a different field name append their value to the last
row value without adding an insert column and without any count check
(`buildRows` splits exactly at recurrences of the first name). -/
theorem column_insert_row_detection {V : Type} (n0 : String) (v0 : V)
    (tl : List (String × V)) (h0 : n0 ≠ "")
    (hnames : ∀ p ∈ tl, p.1 ≠ "") :
    (initInsertColumn V).setMany ((n0, v0) :: tl) =
      Except.ok (Column.mk false [] true
        (tl.any (fun p => decide (p.1 = n0))) n0
        (n0 :: (tl.takeWhile (fun p => decide (p.1 ≠ n0))).map Prod.fst)
        (buildRows n0 [v0] tl)) := by
  have hstep : (initInsertColumn V).set n0 v0 =
      Except.ok (Column.mk false [] true false n0 [n0] [[v0]]) := by
    simp [Column.set, initInsertColumn, h0]
  have hrec := column_setMany_insert_go tl
    (Column.mk false [] true false n0 [n0] [[v0]]) [] [v0] rfl rfl hnames rfl
  simp only [Column.setMany, hstep, hrec]
  rfl

/-- Witness for C6 at a concrete call sequence: fields `a, b, a, c` build
columns `[a, b]`, rows `[[1, 2], [3, 4]]`, with the fourth call appended to
the last row without a new column. -/
theorem column_insert_row_detection_witness :
    (initInsertColumn Nat).setMany
      [("a", 1), ("b", 2), ("a", 3), ("c", 4)] =
      Except.ok (Column.mk false [] true true "a" ["a", "b"]
        [[1, 2], [3, 4]]) := by
  have h := column_insert_row_detection "a" 1
    [("b", 2), ("a", 3), ("c", 4)] (by decide) (by decide)
  simpa using h


/-- Claim C8 counterexample: `Sprintf` aborts on an argument with no SQL
literal representation.  At this input it returns only the text interpolated
before the failing placeholder together with a non-nil error — the returned
text is not fully interpolated and contains no inline error string. -/
theorem sprintf_unrenderable_aborts :
    Sprintf DialectMySQL "select ?, ?".data
      [SpVal.vBad "sq.FaultySQL", SpVal.vInt 42] =
      ("select ".data,
        some ("sq.FaultySQL has no SQL representation").data) ∧
    (Sprintf DialectMySQL "select ?, ?".data
      [SpVal.vBad "sq.FaultySQL", SpVal.vInt 42]).2 ≠ none := by
  have h1 : Sprintf DialectMySQL "select ?, ?".data
      [SpVal.vBad "sq.FaultySQL", SpVal.vInt 42] =
      ("select ".data,
        some ("sq.FaultySQL has no SQL representation").data) := by rfl
  exact ⟨h1, by rw [h1]; simp⟩

/-- Characters of the digit range are not quote characters, not the opening
bracket, and are parameter-name characters. -/
theorem asciiDigit_scan_facts (c : Char) (h : isAsciiDigit c = true) :
    isSymmetricQuote c = false ∧ c ≠ '[' ∧ isParamNameChar c = true := by
  refine ⟨?_, ?_, ?_⟩
  · have h39 : ¬(c = Char.ofNat 39) := fun he => by
      rw [he] at h; exact absurd h (by decide)
    have h34 : ¬(c = Char.ofNat 34) := fun he => by
      rw [he] at h; exact absurd h (by decide)
    have h96 : ¬(c = backquote) := fun he => by
      rw [he] at h; exact absurd h (by decide)
    simp [isSymmetricQuote, h39, h34, h96]
  · intro he; rw [he] at h; exact absurd h (by decide)
  · have hd : c.isDigit = true := h
    simp [isParamNameChar, hd]

/-- While a parameter name is pending, the scanner accumulates a run of
digit characters into it. -/
theorem sprintfCore_digit_accum (d : String) (args : List SpVal)
    (ni : List (String × Nat)) :
    ∀ (ds : List Char), ds.all isAsciiDigit = true →
    ∀ (rest : List Char) (bf : List Char) (oq : Char) (pn : List Char)
      (k : Nat), pn ≠ [] →
    sprintfCore d args ni (ds ++ rest)
      { buf := bf
        forceNext := false
        insideQuoted := false
        openingQuote := oq
        paramName := pn
        runningArgsIndex := k } =
    sprintfCore d args ni rest
      { buf := bf
        forceNext := false
        insideQuoted := false
        openingQuote := oq
        paramName := pn ++ ds
        runningArgsIndex := k } := by
  intro ds
  induction ds with
  | nil => intro _ rest bf oq pn k _; simp
  | cons c ds ih =>
    intro hall rest bf oq pn k hpn
    rw [List.all_cons, Bool.and_eq_true] at hall
    obtain ⟨hc, hall⟩ := hall
    obtain ⟨hq, hbr, hpc⟩ := asciiDigit_scan_facts c hc
    rw [List.cons_append, sprintfCore]
    simp only [Bool.false_eq_true, if_false, hq, Bool.false_and,
      Bool.false_or, hbr, ne_eq, hpn, not_false_eq_true, if_true, hpc,
      Bool.not_true, decide_False, Bool.and_false, Bool.false_eq_true]
    rw [ih hall rest bf oq (pn ++ [c]) k (by simp)]
    simp [List.append_assoc]

/-- A cleanly scanned prefix composes with any continuation: scanning
`q ++ q2` from a pending-free state first reaches the derived state and
then continues with `q2`, and the derived state is again pending-free. -/
theorem scanOk_extend (d : String) (args : List SpVal)
    (ni : List (String × Nat)) :
    ∀ {q : List Char} {st st' : SpState}, ScanOk d args ni q st st' →
    st.forceNext = false → st.insideQuoted = false → st.paramName = [] →
    (st'.forceNext = false ∧ st'.insideQuoted = false ∧
      st'.paramName = []) ∧
    ∀ q2 : List Char,
      sprintfCore d args ni (q ++ q2) st = sprintfCore d args ni q2 st' := by
  intro q st st' h
  induction h with
  | nil st =>
    intro hf hi hp
    exact ⟨⟨hf, hi, hp⟩, fun q2 => by rw [List.nil_append]⟩
  | plain c rest st st' hc hrec ih =>
    intro hf hi hp
    obtain ⟨bf, fn, iq, oq, pn, k⟩ := st
    obtain rfl : fn = false := hf
    obtain rfl : iq = false := hi
    obtain rfl : pn = [] := hp
    obtain ⟨hn, hcont⟩ := ih rfl rfl rfl
    refine ⟨hn, fun q2 => ?_⟩
    simp only [isSprintfPlainChar, Bool.and_eq_true] at hc
    obtain ⟨⟨⟨hq1, hq2⟩, hq3⟩, hq4⟩ := hc
    rw [Bool.not_eq_true'] at hq1 hq2 hq3 hq4
    rw [List.cons_append, sprintfCore]
    simp only [ne_eq] at hq1 hq3 hq4
    simp only [hq1, hq2, hq3, hq4, Bool.false_eq_true, Bool.or_self,
      if_false, ne_eq, not_true_eq_false, Bool.false_and, Bool.and_false,
      Bool.false_or, not_false_eq_true, if_true, eq_self_iff_true]
    exact hcont q2
  | anon rest st st' a pv hd1 hd2 hget hsp hrec ih =>
    intro hf hi hp
    obtain ⟨bf, fn, iq, oq, pn, k⟩ := st
    obtain rfl : fn = false := hf
    obtain rfl : iq = false := hi
    obtain rfl : pn = [] := hp
    obtain ⟨hn, hcont⟩ := ih rfl rfl rfl
    refine ⟨hn, fun q2 => ?_⟩
    have hnle : ¬(args.length ≤ k) := by
      intro hle
      rw [List.get?_eq_none.mpr hle] at hget
      cases hget
    rw [List.get?_eq_getElem?] at hget
    rw [List.cons_append, sprintfCore]
    simp [isSymmetricQuote, backquote, hd1, hd2, hnle, hget, hsp]
    exact hcont q2
  | ordinal ds t rest st st' a pv hd hne hdig h1N hNlen hget hsp hqt hbt
      htn hrec ih =>
    intro hf hi hp
    obtain ⟨bf, fn, iq, oq, pn, k⟩ := st
    obtain rfl : fn = false := hf
    obtain rfl : iq = false := hi
    obtain rfl : pn = [] := hp
    obtain ⟨hn, hcont⟩ := ih rfl rfl rfl
    refine ⟨hn, fun q2 => ?_⟩
    have hpd : (decide (d = DialectSQLite) ||
        decide (d = DialectPostgres)) = true := by
      rcases hd with h | h <;> simp [h]
    have hA : ¬(natOfDigits ds < 1) := by omega
    have hB : ¬(args.length < natOfDigits ds) := by omega
    rw [List.get?_eq_getElem?] at hget
    simp only [List.cons_append, List.append_assoc]
    rw [sprintfCore]
    simp [hpd, isSymmetricQuote, backquote]
    rw [sprintfCore_digit_accum d args ni ds hdig (t :: (rest ++ q2)) bf oq
      ['$'] k (by simp)]
    rw [sprintfCore]
    simp [hqt, hbt, htn, hne, hdig, hA, hB, hget, hsp, lookupParam,
      show ('$' : Char) ≠ '@' from by decide,
      show ('$' : Char) ≠ '?' from by decide]
    simpa using hcont q2

/-- From a pending-free state, a direct `?` placeholder whose argument has
no SQL representation aborts the scan: the buffer accumulated so far is
returned with the error, and the rest of the query is dropped. -/
theorem sprintfCore_anon_fail (d : String) (args : List SpVal)
    (ni : List (String × Nat)) (suffix : List Char) (bf : List Char)
    (oq : Char) (k : Nat) (ty : String)
    (hd1 : d ≠ DialectPostgres) (hd2 : d ≠ DialectSQLite)
    (hget : args.get? k = some (SpVal.vBad ty)) :
    sprintfCore d args ni ('?' :: suffix)
      { buf := bf
        forceNext := false
        insideQuoted := false
        openingQuote := oq
        paramName := []
        runningArgsIndex := k } =
      (bf, some ((ty ++ " has no SQL representation").data)) := by
  have hnle : ¬(args.length ≤ k) := by
    intro hle
    rw [List.get?_eq_none.mpr hle] at hget
    cases hget
  rw [List.get?_eq_getElem?] at hget
  rw [sprintfCore]
  simp [isSymmetricQuote, backquote, hd1, hd2, hnle, hget, Sprint]

/-- From a pending-free state, a `$N` ordinal parameter (SQLite/Postgres)
naming an argument with no SQL representation aborts the scan when the name
terminates: the buffer accumulated so far is returned with the error. -/
theorem sprintfCore_ordinal_fail (d : String) (args : List SpVal)
    (ni : List (String × Nat)) (ds : List Char) (t : Char)
    (suffix : List Char) (bf : List Char) (oq : Char) (k : Nat)
    (ty : String) (hd : d = DialectSQLite ∨ d = DialectPostgres)
    (hne : ds ≠ []) (hdig : ds.all isAsciiDigit = true)
    (h1N : 1 ≤ natOfDigits ds) (hNlen : natOfDigits ds ≤ args.length)
    (hget : args.get? (natOfDigits ds - 1) = some (SpVal.vBad ty))
    (hqt : isSymmetricQuote t = false) (hbt : t ≠ '[')
    (htn : isParamNameChar t = false) :
    sprintfCore d args ni ('$' :: (ds ++ t :: suffix))
      { buf := bf
        forceNext := false
        insideQuoted := false
        openingQuote := oq
        paramName := []
        runningArgsIndex := k } =
      (bf, some ((ty ++ " has no SQL representation").data)) := by
  have hpd : (decide (d = DialectSQLite) ||
      decide (d = DialectPostgres)) = true := by
    rcases hd with h | h <;> simp [h]
  have hA : ¬(natOfDigits ds < 1) := by omega
  have hB : ¬(args.length < natOfDigits ds) := by omega
  rw [List.get?_eq_getElem?] at hget
  rw [sprintfCore]
  simp [hpd, isSymmetricQuote, backquote]
  rw [sprintfCore_digit_accum d args ni ds hdig (t :: suffix) bf oq
    ['$'] k (by simp)]
  rw [sprintfCore]
  simp [hqt, hbt, htn, hne, hdig, hA, hB, hget, lookupParam, Sprint,
    show ('$' : Char) ≠ '@' from by decide]

/-- From a pending-free state, an `@pN` ordinal parameter (SQL Server)
naming an argument with no SQL representation aborts the scan when the name
terminates: the buffer accumulated so far is returned with the error. -/
theorem sprintfCore_atp_fail (args : List SpVal)
    (ni : List (String × Nat)) (ds : List Char) (t : Char)
    (suffix : List Char) (bf : List Char) (oq : Char) (k : Nat)
    (ty : String)
    (hne : ds ≠ []) (hdig : ds.all isAsciiDigit = true)
    (h1N : 1 ≤ natOfDigits ds) (hNlen : natOfDigits ds ≤ args.length)
    (hget : args.get? (natOfDigits ds - 1) = some (SpVal.vBad ty))
    (hqt : isSymmetricQuote t = false) (hbt : t ≠ '[')
    (htn : isParamNameChar t = false) :
    sprintfCore DialectSQLServer args ni ('@' :: 'p' :: (ds ++ t :: suffix))
      { buf := bf
        forceNext := false
        insideQuoted := false
        openingQuote := oq
        paramName := []
        runningArgsIndex := k } =
      (bf, some ((ty ++ " has no SQL representation").data)) := by
  have hA : ¬(natOfDigits ds < 1) := by omega
  have hB : ¬(args.length < natOfDigits ds) := by omega
  have e1 : DialectSQLServer ≠ DialectSQLite := by decide
  have e2 : DialectSQLServer ≠ DialectPostgres := by decide
  have e3 : DialectSQLServer ≠ DialectMySQL := by decide
  rw [List.get?_eq_getElem?] at hget
  rw [sprintfCore]
  simp [isSymmetricQuote, backquote, e1, e2, e3]
  rw [sprintfCore]
  simp [isSymmetricQuote, backquote, isParamNameChar, e1, e2, e3]
  rw [sprintfCore_digit_accum DialectSQLServer args ni ds hdig (t :: suffix)
    bf oq ['@', 'p'] k (by simp)]
  rw [sprintfCore]
  simp [hqt, hbt, htn, hne, hdig, hA, hB, hget, lookupParam, Sprint,
    e1, e2, e3]

/-- Claim C8 (amended): for every dialect, `Sprintf` aborts at the first
argument with no SQL literal representation.  After any cleanly scanned
prefix — which may itself interpolate earlier placeholders — a direct `?`
placeholder (every dialect except Postgres, where `?` is plain text, and
SQLite, where `?` starts a parameter name), a `$N` ordinal parameter
(SQLite and Postgres) or an `@pN` ordinal parameter (SQL Server) that
consumes an argument with no SQL representation makes `Sprintf` return
exactly the text interpolated before the failing placeholder together with
a non-nil error: no inline error string is inserted and the rest of the
query is dropped.  And for every dialect, query string and argument list,
the logging path (`logger.LogQuery`) does not abort: whenever `Sprintf`
reports an error it appends the error text after the partial query text and
still emits the line. -/
theorem sprintf_abort_behaviour (d : String) :
    (∀ (pre suffix : List Char) (args : List SpVal) (st : SpState)
      (ty : String),
      ScanOk d args [] pre {} st →
      d ≠ DialectPostgres → d ≠ DialectSQLite →
      args.get? st.runningArgsIndex = some (SpVal.vBad ty) →
      Sprintf d (pre ++ '?' :: suffix) args =
        (st.buf, some ((ty ++ " has no SQL representation").data))) ∧
    (∀ (pre ds : List Char) (t : Char) (suffix : List Char)
      (args : List SpVal) (st : SpState) (ty : String),
      ScanOk d args [] pre {} st →
      (d = DialectSQLite ∨ d = DialectPostgres) →
      ds ≠ [] → ds.all isAsciiDigit = true →
      1 ≤ natOfDigits ds → natOfDigits ds ≤ args.length →
      args.get? (natOfDigits ds - 1) = some (SpVal.vBad ty) →
      isSymmetricQuote t = false → t ≠ '[' → isParamNameChar t = false →
      Sprintf d (pre ++ '$' :: (ds ++ t :: suffix)) args =
        (st.buf, some ((ty ++ " has no SQL representation").data))) ∧
    (∀ (pre ds : List Char) (t : Char) (suffix : List Char)
      (args : List SpVal) (st : SpState) (ty : String),
      ScanOk d args [] pre {} st →
      d = DialectSQLServer →
      ds ≠ [] → ds.all isAsciiDigit = true →
      1 ≤ natOfDigits ds → natOfDigits ds ≤ args.length →
      args.get? (natOfDigits ds - 1) = some (SpVal.vBad ty) →
      isSymmetricQuote t = false → t ≠ '[' → isParamNameChar t = false →
      Sprintf d (pre ++ '@' :: 'p' :: (ds ++ t :: suffix)) args =
        (st.buf, some ((ty ++ " has no SQL representation").data))) ∧
    (∀ (query : List Char) (args : List SpVal) (txt e : List Char),
      Sprintf d query args = (txt, some e) →
      logInterpolatedQuery d query args =
        ' ' :: ((txt ++ ' ' :: e) ++ [';'])) := by
  refine ⟨?_, ?_, ?_, ?_⟩
  · intro pre suffix args st ty hscan hd1 hd2 hget
    obtain ⟨⟨hf, hi, hp⟩, hcont⟩ :=
      scanOk_extend d args [] hscan rfl rfl rfl
    have hlen : ¬(args.length = 0) := by
      intro h0
      rw [List.get?_eq_none.mpr (by omega)] at hget
      cases hget
    obtain ⟨bf, fn, iq, oq, pn, k⟩ := st
    obtain rfl : fn = false := hf
    obtain rfl : iq = false := hi
    obtain rfl : pn = [] := hp
    unfold Sprintf
    rw [if_neg hlen, hcont ('?' :: suffix)]
    exact sprintfCore_anon_fail d args [] suffix bf oq k ty hd1 hd2 hget
  · intro pre ds t suffix args st ty hscan hd hne hdig h1N hNlen hget hqt
      hbt htn
    obtain ⟨⟨hf, hi, hp⟩, hcont⟩ :=
      scanOk_extend d args [] hscan rfl rfl rfl
    have hlen : ¬(args.length = 0) := by omega
    obtain ⟨bf, fn, iq, oq, pn, k⟩ := st
    obtain rfl : fn = false := hf
    obtain rfl : iq = false := hi
    obtain rfl : pn = [] := hp
    unfold Sprintf
    rw [if_neg hlen, hcont ('$' :: (ds ++ t :: suffix))]
    exact sprintfCore_ordinal_fail d args [] ds t suffix bf oq k ty hd hne
      hdig h1N hNlen hget hqt hbt htn
  · intro pre ds t suffix args st ty hscan hd hne hdig h1N hNlen hget hqt
      hbt htn
    subst hd
    obtain ⟨⟨hf, hi, hp⟩, hcont⟩ :=
      scanOk_extend DialectSQLServer args [] hscan rfl rfl rfl
    have hlen : ¬(args.length = 0) := by omega
    obtain ⟨bf, fn, iq, oq, pn, k⟩ := st
    obtain rfl : fn = false := hf
    obtain rfl : iq = false := hi
    obtain rfl : pn = [] := hp
    unfold Sprintf
    rw [if_neg hlen, hcont ('@' :: 'p' :: (ds ++ t :: suffix))]
    exact sprintfCore_atp_fail args [] ds t suffix bf oq k ty hne
      hdig h1N hNlen hget hqt hbt htn
  · intro query args txt e hq
    simp [logInterpolatedQuery, hq]

/-- Witness for C8 (amended) at a concrete input with a genuinely
interpolated placeholder before the failing one: on Postgres, the query
with ordinal parameters 1 and 2 and arguments 7 and an unrenderable value
interpolates the first parameter to 7 and then aborts at the second. -/
theorem sprintf_abort_behaviour_witness :
    Sprintf DialectPostgres
        ("$1 ".data ++ '$' :: ("2".data ++ ',' :: " x".data))
        [SpVal.vInt 7, SpVal.vBad "sq.FaultySQL"] =
      ("7 ".data,
        some (("sq.FaultySQL" ++ " has no SQL representation").data)) ∧
    logInterpolatedQuery DialectPostgres
        ("$1 ".data ++ '$' :: ("2".data ++ ',' :: " x".data))
        [SpVal.vInt 7, SpVal.vBad "sq.FaultySQL"] =
      ' ' :: (("7 ".data ++
        ' ' :: ("sq.FaultySQL" ++ " has no SQL representation").data) ++
        [';']) := by
  have h2 := (sprintf_abort_behaviour DialectPostgres).2.1 "$1 ".data
    "2".data ',' " x".data [SpVal.vInt 7, SpVal.vBad "sq.FaultySQL"]
    { buf := "7 ".data } "sq.FaultySQL"
    (ScanOk.ordinal "1".data ' ' [] {} { buf := "7 ".data }
      (SpVal.vInt 7) "7".data (Or.inr rfl) (by decide) (by decide)
      (by decide) (by decide) (by rfl) (by rfl) (by decide) (by decide)
      (by decide) (ScanOk.nil _))
    (Or.inr rfl) (by decide) (by decide) (by decide) (by decide) (by rfl)
    (by decide) (by decide) (by decide)
  exact ⟨h2, (sprintf_abort_behaviour DialectPostgres).2.2.2 _ _ _ _ h2⟩


/-- Claim C4 counterexample: on SQLite, an ordinal placeholder referencing a
`sql.NamedArg` value is not rendered as the positional marker of a bound
index — it is delegated to named-argument handling and rendered as the named
placeholder `$x`. -/
theorem writef_ordinal_named_counterexample :
    Writef DialectSQLite "{1}".data [SqlArg.named "x" (5 : Nat)] [] []
      (some []) =
      Except.ok
        { buf := "$x".data
          args := [SqlArg.named "x" 5]
          params := some [("x", [0])]
          ordinalIndex := []
          runningValuesIndex := 0 } ∧
    "$x".data ≠ positionalMarker DialectSQLite 0 := by
  constructor
  · rfl
  · decide

/-- An association-list lookup that misses means the key is absent. -/
theorem alistGet_none_not_mem {A B : Type} [DecidableEq A]
    (l : List (A × B)) (k : A) (h : alistGet l k = none) :
    k ∉ l.map Prod.fst := by
  induction l with
  | nil => simp
  | cons p tl ih =>
    obtain ⟨a, b⟩ := p
    by_cases hk : a = k
    · simp [alistGet, hk] at h
    · simp only [alistGet, hk, if_false] at h
      simp [Ne.symm hk, ih h]

/-- Setting an absent key appends it at the end. -/
theorem alistSet_of_none {A B : Type} [DecidableEq A]
    (l : List (A × B)) (k : A) (v : B) (h : alistGet l k = none) :
    alistSet l k v = l ++ [(k, v)] := by
  induction l with
  | nil => simp [alistSet]
  | cons p tl ih =>
    obtain ⟨a, b⟩ := p
    by_cases hk : a = k
    · simp [alistGet, hk] at h
    · simp only [alistGet, hk, if_false] at h
      simp [alistSet, hk, ih h]

/-- The ordinal-binding invariant survives appending to the args slice. -/
theorem ordinalInv_append {V : Type} (values args : List (SqlArg V))
    (oi : List (Nat × Nat)) (x : SqlArg V)
    (h : ordinalInv values args oi) :
    ordinalInv values (args ++ [x]) oi := by
  obtain ⟨hnd, hent⟩ := h
  refine ⟨hnd, fun p hp => ?_⟩
  obtain ⟨h1, h2, h3⟩ := hent p hp
  refine ⟨h1, h2, ?_⟩
  have hlt : p.2 < args.length := by
    by_contra hge
    rw [List.get?_eq_none.mpr (Nat.le_of_not_lt hge)] at h3
    have : p.1 - 1 < values.length := by omega
    rw [List.get?_eq_get this] at h3
    cases h3
  rw [List.get?_append hlt]
  exact h3

/-- The ordinal-binding invariant extended by a fresh binding. -/
theorem ordinalInv_bind {V : Type} (values args : List (SqlArg V))
    (oi : List (Nat × Nat)) (N : Nat) (pv : V)
    (h : ordinalInv values args oi) (hget : alistGet oi N = none)
    (h1 : 1 ≤ N) (h2 : N ≤ values.length)
    (hv : values.get? (N - 1) = some (SqlArg.plain pv)) :
    ordinalInv values (args ++ [SqlArg.plain pv])
      (alistSet oi N args.length) := by
  obtain ⟨hnd, hent⟩ := h
  rw [alistSet_of_none oi N args.length hget]
  constructor
  · rw [List.map_append]
    simp only [List.map_cons, List.map_nil]
    rw [List.nodup_append]
    refine ⟨hnd, List.nodup_singleton _, fun a ha hb => ?_⟩
    simp only [List.mem_singleton] at hb
    subst hb
    exact alistGet_none_not_mem oi _ hget ha
  · intro p hp
    rw [List.mem_append] at hp
    rcases hp with hp | hp
    · obtain ⟨k1, k2, k3⟩ := hent p hp
      refine ⟨k1, k2, ?_⟩
      have hlt : p.2 < args.length := by
        by_contra hge
        rw [List.get?_eq_none.mpr (Nat.le_of_not_lt hge)] at k3
        have : p.1 - 1 < values.length := by omega
        rw [List.get?_eq_get this] at k3
        cases k3
      rw [List.get?_append hlt]
      exact k3
    · simp only [List.mem_singleton] at hp
      subst hp
      refine ⟨h1, h2, ?_⟩
      rw [List.get?_concat_length, hv]


/-- On a value list with no named values, the `namedIndex` construction is a
no-op. -/
theorem buildNamedIndexAux_plain {V : Type} :
    ∀ (values : List (SqlArg V)), (∀ v ∈ values, isPlainArg v = true) →
    ∀ (i : Nat) (acc : List (String × Nat)),
    buildNamedIndexAux values i acc = Except.ok acc := by
  intro values
  induction values with
  | nil => intro _ i acc; rfl
  | cons v tl ih =>
    intro hplain i acc
    have hv := hplain v (List.mem_cons_self _ _)
    have htl : ∀ v ∈ tl, isPlainArg v = true :=
      fun v hm => hplain v (List.mem_cons_of_mem _ hm)
    cases v with
    | plain pv => simp [buildNamedIndexAux, ih htl]
    | named n pv => simp [isPlainArg] at hv

/-- A brace-free format references no ordinals. -/
theorem ordinalOccurrences_no_brace :
    ∀ (fmt : List Char), fmt.contains '{' = false →
    ordinalOccurrences fmt none = [] := by
  intro fmt
  induction fmt with
  | nil => intro _; rfl
  | cons c rest ih =>
    intro h
    rw [List.contains_cons, Bool.or_eq_false_iff] at h
    obtain ⟨h1, h2⟩ := h
    have hc' : ¬ ('{' = c) := by simpa using h1
    have hc : ¬ c = '{' := fun he => hc' he.symm
    cases rest with
    | nil => rfl
    | cons c2 rest2 =>
      rw [ordinalOccurrences, if_neg hc]
      exact ih h2

/-- A successful `writeOrdinalValue` on a numbered-placeholder dialect with
all-plain values preserves the binding invariant, and its ordinal was in
bounds. -/
theorem writeOrdinalValue_plain_sound {V : Type} (d : String)
    (hd : d = DialectSQLite ∨ d = DialectPostgres ∨ d = DialectSQLServer)
    (values : List (SqlArg V)) (hplain : ∀ v ∈ values, isPlainArg v = true)
    (st st' : WState V) (N : Nat)
    (hok : writeOrdinalValue d st values N = Except.ok st')
    (hinv : ordinalInv values st.args st.ordinalIndex) :
    ordinalInv values st'.args st'.ordinalIndex ∧
      1 ≤ N ∧ N ≤ values.length := by
  unfold writeOrdinalValue at hok
  by_cases hoob : (decide (N < 1) || decide (values.length < N)) = true
  · rw [if_pos hoob] at hok
    cases hok
  · have hb : 1 ≤ N ∧ N ≤ values.length := by
      simp only [Bool.or_eq_true, decide_eq_true_eq, not_or] at hoob
      omega
    rw [if_neg hoob] at hok
    cases hv : values.get? (N - 1) with
    | none =>
      rw [hv] at hok
      cases hok
    | some v =>
      rw [hv] at hok
      have hvp := hplain v (List.get?_mem hv)
      cases v with
      | named n pv => simp [isPlainArg] at hvp
      | plain pv =>
        have hdl : (d = DialectSQLite || d = DialectPostgres ||
            d = DialectSQLServer) = true := by
          rcases hd with h | h | h <;> simp [h]
        simp only [hdl, if_true] at hok
        cases halist : alistGet st.ordinalIndex N with
        | some i =>
          rw [halist] at hok
          cases hok
          exact ⟨hinv, hb⟩
        | none =>
          rw [halist] at hok
          cases hok
          refine ⟨?_, hb⟩
          simp only [List.length_append, List.length_singleton]
          have := ordinalInv_bind values st.args st.ordinalIndex N pv hinv
            halist hb.1 hb.2 hv
          simpa using this

/-- A successful placeholder dispatch with all-plain values and an empty
`namedIndex` preserves the binding invariant; when the placeholder was an
ordinal, it was in bounds. -/
theorem writefDispatch_plain_sound {V : Type} (d : String)
    (hd : d = DialectSQLite ∨ d = DialectPostgres ∨ d = DialectSQLServer)
    (values : List (SqlArg V)) (hplain : ∀ v ∈ values, isPlainArg v = true)
    (acc : List Char) (st st' : WState V)
    (hok : writefDispatch d values [] acc st = Except.ok st')
    (hinv : ordinalInv values st.args st.ordinalIndex) :
    ordinalInv values st'.args st'.ordinalIndex ∧
    (acc ≠ [] → acc.all isAsciiDigit = true →
      1 ≤ natOfDigits acc ∧ natOfDigits acc ≤ values.length) := by
  unfold writefDispatch at hok
  cases hpn : acc.all isParamNameChar with
  | false =>
    rw [hpn] at hok
    simp at hok
  | true =>
    rw [hpn] at hok
    simp only [Bool.not_true, Bool.false_eq_true, if_false] at hok
    by_cases hae : acc = []
    · subst hae
      simp only [if_true] at hok
      by_cases hlen : values.length ≤ st.runningValuesIndex
      · rw [if_pos hlen] at hok
        cases hok
      · rw [if_neg hlen] at hok
        cases hv : values.get? st.runningValuesIndex with
        | none =>
          rw [hv] at hok
          cases hok
        | some v =>
          rw [hv] at hok
          have hvp := hplain v (List.get?_mem hv)
          cases v with
          | named n pv => simp [isPlainArg] at hvp
          | plain pv =>
            cases hok
            refine ⟨?_, fun h _ => absurd rfl h⟩
            exact ordinalInv_append values st.args st.ordinalIndex _ hinv
    · simp only [if_neg hae] at hok
      by_cases hdg : acc.all isAsciiDigit = true
      · rw [if_pos hdg] at hok
        have := writeOrdinalValue_plain_sound d hd values hplain st st'
          (natOfDigits acc) hok hinv
        exact ⟨this.1, fun _ _ => this.2⟩
      · rw [if_neg hdg] at hok
        simp [alistGet] at hok

/-- Scanning a format with all-plain values and an empty `namedIndex`: a
successful run preserves the binding invariant and every ordinal it
references is in bounds. -/
theorem writefCore_plain_sound {V : Type} (d : String)
    (hd : d = DialectSQLite ∨ d = DialectPostgres ∨ d = DialectSQLServer)
    (values : List (SqlArg V)) (hplain : ∀ v ∈ values, isPlainArg v = true) :
    ∀ (fmt : List Char) (mode : Option (List Char)) (st st' : WState V),
    writefCore d values [] fmt mode st = Except.ok st' →
    ordinalInv values st.args st.ordinalIndex →
    ordinalInv values st'.args st'.ordinalIndex ∧
    (∀ N ∈ ordinalOccurrences fmt mode, 1 ≤ N ∧ N ≤ values.length) := by
  intro fmt mode st
  induction fmt, mode, st using writefCore.induct d values [] with
  | case1 st =>
    intro st' hok hinv
    rw [writefCore] at hok
    cases hok
    exact ⟨hinv, by simp [ordinalOccurrences]⟩
  | case2 st acc =>
    intro st' hok _
    rw [writefCore] at hok
    cases hok
  | case3 st rest acc e hdisp =>
    intro st' hok _
    rw [writefCore, hdisp] at hok
    cases hok
  | case4 st rest acc st1 hdisp ih =>
    intro st' hok hinv
    rw [writefCore, if_pos rfl, hdisp] at hok
    have hok' : writefCore d values [] rest none st1 = Except.ok st' := hok
    have hstep := writefDispatch_plain_sound d hd values hplain acc st st1
      hdisp hinv
    have hrec := ih st' hok' hstep.1
    refine ⟨hrec.1, ?_⟩
    intro N hN
    rw [ordinalOccurrences, if_pos rfl] at hN
    rw [List.mem_append] at hN
    rcases hN with hN | hN
    · by_cases hcond : acc ≠ [] ∧ acc.all isParamNameChar = true ∧
          acc.all isAsciiDigit = true
      · rw [if_pos hcond] at hN
        simp only [List.mem_singleton] at hN
        subst hN
        exact hstep.2 hcond.1 hcond.2.2
      · rw [if_neg hcond] at hN
        cases hN
    · exact hrec.2 N hN
  | case5 st c rest acc hc ih =>
    intro st' hok hinv
    rw [writefCore] at hok
    rw [if_neg hc] at hok
    have hrec := ih st' hok hinv
    refine ⟨hrec.1, ?_⟩
    intro N hN
    rw [ordinalOccurrences, if_neg hc] at hN
    exact hrec.2 N hN
  | case6 st =>
    intro st' hok _
    rw [writefCore] at hok
    simp at hok
  | case7 st c hc ih =>
    intro st' hok hinv
    rw [writefCore, if_neg hc] at hok
    have hrec := ih st' hok hinv
    exact ⟨hrec.1, by simp [ordinalOccurrences]⟩
  | case8 st rest2 ih =>
    intro st' hok hinv
    rw [writefCore] at hok
    simp only [if_pos rfl] at hok
    have hrec := ih st' hok hinv
    refine ⟨hrec.1, ?_⟩
    intro N hN
    rw [ordinalOccurrences] at hN
    simp only [if_pos rfl] at hN
    exact hrec.2 N hN
  | case9 st c2 rest2 hc2 ih =>
    intro st' hok hinv
    rw [writefCore] at hok
    simp only [if_pos rfl, if_neg hc2] at hok
    have hrec := ih st' hok hinv
    refine ⟨hrec.1, ?_⟩
    intro N hN
    rw [ordinalOccurrences] at hN
    simp only [if_pos rfl, if_neg hc2] at hN
    exact hrec.2 N hN
  | case10 st c c2 rest2 hc ih =>
    intro st' hok hinv
    rw [writefCore, if_neg hc] at hok
    have hrec := ih st' hok hinv
    refine ⟨hrec.1, ?_⟩
    intro N hN
    rw [ordinalOccurrences, if_neg hc] at hN
    exact hrec.2 N hN


/-- Claim C4 (amended): under the SQLite, Postgres and SQL Server dialects,
for plain (non-named) values: an out-of-range ordinal `\x7bN\x7d` fails with the
out-of-bounds error when reached; an in-range ordinal already bound renders
the positional marker of its bound index without touching the args; an
in-range ordinal not yet bound appends `values[N-1]` to the args once,
records the binding, and renders the new slot's positional marker; and a
successful `Writef` run over an all-plain values list has every referenced
ordinal in bounds and leaves the ordinal index binding each ordinal at most
once to a slot holding `values[N-1]`.  (A `sql.NamedArg` value referenced by
ordinal is instead delegated to named-argument handling, see the
counterexample.) -/
theorem writef_ordinal_binding {V : Type} (d : String)
    (hd : d = DialectSQLite ∨ d = DialectPostgres ∨ d = DialectSQLServer) :
    (∀ (st : WState V) (values : List (SqlArg V)) (N : Nat),
      N < 1 ∨ values.length < N →
      writeOrdinalValue d st values N = Except.error (ordinalOOBMsg N)) ∧
    (∀ (st : WState V) (values : List (SqlArg V)) (N i : Nat) (pv : V),
      values.get? (N - 1) = some (SqlArg.plain pv) →
      1 ≤ N → N ≤ values.length →
      alistGet st.ordinalIndex N = some i →
      writeOrdinalValue d st values N =
        Except.ok { st with buf := st.buf ++ positionalMarker d i }) ∧
    (∀ (st : WState V) (values : List (SqlArg V)) (N : Nat) (pv : V),
      values.get? (N - 1) = some (SqlArg.plain pv) →
      1 ≤ N → N ≤ values.length →
      alistGet st.ordinalIndex N = none →
      writeOrdinalValue d st values N =
        Except.ok { st with
          args := st.args ++ [SqlArg.plain pv]
          ordinalIndex := alistSet st.ordinalIndex N st.args.length
          buf := st.buf ++ positionalMarker d st.args.length }) ∧
    (∀ (values : List (SqlArg V)) (fmt : List Char)
        (params0 : Option (List (String × List Nat))) (st' : WState V),
      (∀ v ∈ values, isPlainArg v = true) →
      Writef d fmt values [] [] params0 = Except.ok st' →
      (∀ N ∈ ordinalOccurrences fmt none, 1 ≤ N ∧ N ≤ values.length) ∧
      ordinalInv values st'.args st'.ordinalIndex) := by
  have hdl : (d = DialectSQLite || d = DialectPostgres ||
      d = DialectSQLServer) = true := by
    rcases hd with h | h | h <;> simp [h]
  refine ⟨?_, ?_, ?_, ?_⟩
  · intro st values N h
    have hcond : (decide (N < 1) || decide (values.length < N)) = true := by
      rcases h with h | h <;> simp [h]
    unfold writeOrdinalValue
    rw [if_pos hcond]
  · intro st values N i pv hv h1 h2 halist
    unfold writeOrdinalValue
    rw [if_neg (by simp; omega), hv]
    simp only [hdl, if_true]
    rw [halist]
  · intro st values N pv hv h1 h2 halist
    unfold writeOrdinalValue
    rw [if_neg (by simp; omega), hv]
    simp only [hdl, if_true]
    rw [halist]
    simp
  · intro values fmt params0 st' hplain hok
    by_cases hbrace : fmt.contains '{' = false
    · unfold Writef at hok
      rw [if_pos hbrace] at hok
      cases hok
      refine ⟨?_, ?_⟩
      · rw [ordinalOccurrences_no_brace fmt hbrace]
        simp
      · exact ⟨List.nodup_nil, by simp⟩
    · unfold Writef at hok
      rw [if_neg hbrace] at hok
      have hni : buildNamedIndex values = Except.ok [] :=
        buildNamedIndexAux_plain values hplain 0 []
      rw [hni] at hok
      have hres := writefCore_plain_sound d hd values hplain fmt none
        { buf := [], args := [], params := params0 } st' hok
        ⟨List.nodup_nil, by simp⟩
      exact ⟨hres.2, hres.1⟩

/-- Witness for C4 (amended) at a concrete run: `\x7b1\x7d \x7b2\x7d \x7b1\x7d` on
Postgres binds each ordinal once and every referenced ordinal is in
bounds. -/
theorem writef_ordinal_binding_witness :
    (∀ N ∈ ordinalOccurrences "{1} {2} {1}".data none,
      1 ≤ N ∧ N ≤ [SqlArg.plain (7 : Nat), SqlArg.plain 8].length) ∧
    ordinalInv [SqlArg.plain (7 : Nat), SqlArg.plain 8]
      [SqlArg.plain 7, SqlArg.plain 8] [(1, 0), (2, 1)] :=
  (writef_ordinal_binding DialectPostgres (Or.inr (Or.inl rfl))).2.2.2
    [SqlArg.plain (7 : Nat), SqlArg.plain 8] "{1} {2} {1}".data none
    { buf := "$1 $2 $1".data
      args := [SqlArg.plain 7, SqlArg.plain 8]
      params := none
      ordinalIndex := [(1, 0), (2, 1)]
      runningValuesIndex := 0 }
    (by decide) (by rfl)


/-- Claim C1 (spec-modelled): `UpdateQuery` validation runs before any
rendering, in order, first failure wins: a nil update table fails as
`InvalidStatement` regardless of every other field; an empty effective
assignment list (no mapper and empty static list, or a mapper emitting zero
assignments) fails as `InvalidStatement`; then — each conjunct assuming the
earlier checks pass — FROM on a MySQL UPDATE, JOIN without FROM on a dialect
requiring FROM, ORDER BY or LIMIT on a Postgres/SQLite UPDATE, and RETURNING
on MySQL/SQL Server each fail as `UnsupportedByDialect`.  Failure is an
`Except.error` carrying no SQL text, so no failing case produces any. -/
theorem updateQuery_validation {V : Type} :
    (∀ q : UpdateQuery V, q.updateTable = none →
      UpdateQueryWriteSQL q =
        Except.error (SqErr.invalidStatement "missing target table")) ∧
    (∀ q : UpdateQuery V, q.updateTable.isSome = true →
      q.columnMapper = none → q.assignments = [] →
      UpdateQueryWriteSQL q =
        Except.error (SqErr.invalidStatement "empty assignments")) ∧
    (∀ q : UpdateQuery V, q.updateTable.isSome = true →
      q.columnMapper = some [] →
      UpdateQueryWriteSQL q =
        Except.error (SqErr.invalidStatement "empty assignments")) ∧
    (∀ (q : UpdateQuery V) (asgs : List (String × V)),
      q.updateTable.isSome = true →
      effectiveAssignments q = Except.ok asgs → asgs ≠ [] →
      q.dialect = DialectMySQL → q.fromTable.isSome = true →
      UpdateQueryWriteSQL q =
        Except.error (SqErr.unsupportedByDialect "FROM")) ∧
    (∀ (q : UpdateQuery V) (asgs : List (String × V)),
      q.updateTable.isSome = true →
      effectiveAssignments q = Except.ok asgs → asgs ≠ [] →
      q.dialect ≠ DialectMySQL → q.joinTables ≠ [] → q.fromTable = none →
      UpdateQueryWriteSQL q =
        Except.error (SqErr.unsupportedByDialect "JOIN")) ∧
    (∀ (q : UpdateQuery V) (asgs : List (String × V)),
      q.updateTable.isSome = true →
      effectiveAssignments q = Except.ok asgs → asgs ≠ [] →
      (q.dialect = DialectPostgres ∨ q.dialect = DialectSQLite) →
      (q.joinTables = [] ∨ q.fromTable.isSome = true) →
      q.orderByFields ≠ [] →
      UpdateQueryWriteSQL q =
        Except.error (SqErr.unsupportedByDialect "ORDER BY")) ∧
    (∀ (q : UpdateQuery V) (asgs : List (String × V)),
      q.updateTable.isSome = true →
      effectiveAssignments q = Except.ok asgs → asgs ≠ [] →
      (q.dialect = DialectPostgres ∨ q.dialect = DialectSQLite) →
      (q.joinTables = [] ∨ q.fromTable.isSome = true) →
      q.orderByFields = [] → q.limitRows.isSome = true →
      UpdateQueryWriteSQL q =
        Except.error (SqErr.unsupportedByDialect "LIMIT")) ∧
    (∀ (q : UpdateQuery V) (asgs : List (String × V)),
      q.updateTable.isSome = true →
      effectiveAssignments q = Except.ok asgs → asgs ≠ [] →
      (q.dialect = DialectMySQL ∨ q.dialect = DialectSQLServer) →
      (q.dialect = DialectMySQL → q.fromTable = none) →
      (q.joinTables = [] ∨ q.fromTable.isSome = true ∨
        q.dialect = DialectMySQL) →
      q.orderByFields = [] → q.limitRows = none →
      q.returningFields ≠ [] →
      UpdateQueryWriteSQL q =
        Except.error (SqErr.unsupportedByDialect "RETURNING")) := by
  refine ⟨?_, ?_, ?_, ?_, ?_, ?_, ?_, ?_⟩
  · intro q h
    simp [UpdateQueryWriteSQL, bind, Except.bind, h]
  · intro q hsome hm ha
    obtain ⟨tbl, htbl⟩ := Option.isSome_iff_exists.mp hsome
    simp [UpdateQueryWriteSQL, bind, Except.bind, htbl, effectiveAssignments, hm, ha]
  · intro q hsome hm
    obtain ⟨tbl, htbl⟩ := Option.isSome_iff_exists.mp hsome
    simp [UpdateQueryWriteSQL, bind, Except.bind, htbl, effectiveAssignments, hm,
      Column.setMany, initUpdateColumn]
  · intro q asgs hsome heff hne hd hfrom
    obtain ⟨tbl, htbl⟩ := Option.isSome_iff_exists.mp hsome
    have hempty : asgs.isEmpty = false := by
      cases asgs with
      | nil => exact absurd rfl hne
      | cons a tl => rfl
    simp [UpdateQueryWriteSQL, bind, Except.bind, htbl, heff, hempty, hd, hfrom]
  · intro q asgs hsome heff hne hd hj hf
    obtain ⟨tbl, htbl⟩ := Option.isSome_iff_exists.mp hsome
    have hempty : asgs.isEmpty = false := by
      cases asgs with
      | nil => exact absurd rfl hne
      | cons a tl => rfl
    simp [UpdateQueryWriteSQL, bind, Except.bind, htbl, heff, hempty, hd, hj, hf,
      requiresFromForJoin]
  · intro q asgs hsome heff hne hd hjf hob
    obtain ⟨tbl, htbl⟩ := Option.isSome_iff_exists.mp hsome
    have hempty : asgs.isEmpty = false := by
      cases asgs with
      | nil => exact absurd rfl hne
      | cons a tl => rfl
    have hdm : q.dialect ≠ DialectMySQL := by
      rcases hd with h | h <;> simp [h, DialectPostgres, DialectSQLite,
        DialectMySQL]
    have hsup : supportsOrderByLimitOnUpdate q.dialect = false := by
      rcases hd with h | h <;>
        simp [h, supportsOrderByLimitOnUpdate, DialectPostgres,
          DialectSQLite, DialectMySQL]
    rcases hjf with hj | hf
    · simp [UpdateQueryWriteSQL, bind, Except.bind, htbl, heff, hempty, hdm, hj, hob, hsup]
    · simp [UpdateQueryWriteSQL, bind, Except.bind, htbl, heff, hempty, hdm, hf, hob, hsup]
      intro _ hnone
      rw [hnone] at hf
      simp at hf
  · intro q asgs hsome heff hne hd hjf hob hlim
    obtain ⟨tbl, htbl⟩ := Option.isSome_iff_exists.mp hsome
    have hempty : asgs.isEmpty = false := by
      cases asgs with
      | nil => exact absurd rfl hne
      | cons a tl => rfl
    have hdm : q.dialect ≠ DialectMySQL := by
      rcases hd with h | h <;> simp [h, DialectPostgres, DialectSQLite,
        DialectMySQL]
    have hsup : supportsOrderByLimitOnUpdate q.dialect = false := by
      rcases hd with h | h <;>
        simp [h, supportsOrderByLimitOnUpdate, DialectPostgres,
          DialectSQLite, DialectMySQL]
    rcases hjf with hj | hf
    · simp [UpdateQueryWriteSQL, bind, Except.bind, htbl, heff, hempty, hdm, hj, hob, hlim,
        hsup]
    · simp [UpdateQueryWriteSQL, bind, Except.bind, htbl, heff, hempty, hdm, hf, hob, hlim,
        hsup]
      intro _ hnone
      rw [hnone] at hf
      simp at hf
  · intro q asgs hsome heff hne hd hfromm hjf hob hlim hret
    obtain ⟨tbl, htbl⟩ := Option.isSome_iff_exists.mp hsome
    have hempty : asgs.isEmpty = false := by
      cases asgs with
      | nil => exact absurd rfl hne
      | cons a tl => rfl
    rcases hd with hmy | hss
    · have hf := hfromm hmy
      simp [UpdateQueryWriteSQL, bind, Except.bind, htbl, heff, hempty, hmy, hf, hob, hlim,
        hret, supportsReturningClause, supportsOrderByLimitOnUpdate,
        requiresFromForJoin, DialectMySQL, DialectSQLite, DialectPostgres,
        DialectSQLServer]
    · have hjf' : q.joinTables = [] ∨ q.fromTable.isSome = true := by
        rcases hjf with h | h | h
        · exact Or.inl h
        · exact Or.inr h
        · exact absurd (h.symm.trans hss) (by decide)
      rcases hjf' with hj | hf
      · simp [UpdateQueryWriteSQL, bind, Except.bind, htbl, heff, hempty,
          hss, hj, hob, hlim, hret, supportsReturningClause,
          supportsOrderByLimitOnUpdate, requiresFromForJoin, DialectMySQL,
          DialectSQLite, DialectPostgres, DialectSQLServer]
      · simp [UpdateQueryWriteSQL, bind, Except.bind, htbl, heff, hempty,
          hss, hf, hob, hlim, hret, supportsReturningClause,
          supportsOrderByLimitOnUpdate, requiresFromForJoin, DialectMySQL,
          DialectSQLite, DialectPostgres, DialectSQLServer]
        intro _ hnone
        rw [hnone] at hf
        simp at hf


/-- Witness for C1 at a concrete query: FROM on a MySQL UPDATE (with a valid
table and a mapper emitting one assignment) is rejected as unsupported. -/
theorem updateQuery_validation_witness :
    UpdateQueryWriteSQL (UpdateQuery.mk DialectMySQL (some (Frag.lit "tbl"))
        (some [("f1", (1 : Nat))]) [] (some (Frag.lit "tbl")) [] none []
        none []) =
      Except.error (SqErr.unsupportedByDialect "FROM") :=
  (@updateQuery_validation Nat).2.2.2.1
    (UpdateQuery.mk DialectMySQL (some (Frag.lit "tbl"))
      (some [("f1", 1)]) [] (some (Frag.lit "tbl")) [] none [] none [])
    [("f1", 1)] rfl rfl (by simp) rfl rfl


end Sq
